import Mathlib

/-!
Verification development for the 1C-language compiler front end
(lexer, recursive-descent parser, two-pass semantic analyzer).

The definitions below are a shallow embedding, translated from the
Python sources:
  - syntax/lexer/token.py and syntax/lexer/lexer.py   (token model, Lexer)
  - syntax/parser/ast_nodes.py and syntax/parser/parser.py (AST, Parser)
  - semantic/symbol_table.py, semantic/errors.py,
    semantic/checkers/undefined_variable.py, semantic/semantic_analyzer.py

Python machine-level details are modelled as follows: strings are
`List Char`/`String`, Python `str.lower` / `str.isalpha` / `str.isdigit`
are modelled on the alphabet actually used by the language (ASCII plus
the Cyrillic ranges U+0400-04FF and U+0500-052F, exactly the identifier
alphabet of the lexer); unbounded loops in the lexer/parser are given
explicit fuel, with the entry points choosing fuel large enough for any
terminating run.
-/

namespace OneC

/-- Token kinds, from the TokenType enum in token.py.  The Python enum
member OP_EQUALS is an alias of OP_ASSIGN (same value "="), so only the
canonical member appears here.  The ANNOT constructor is the source's
annotation token kind. -/
inductive TokenType where
  | KEYWORD_PROCEDURE
  | KEYWORD_FUNCTION
  | KEYWORD_END_PROCEDURE
  | KEYWORD_END_FUNCTION
  | KEYWORD_IF
  | KEYWORD_THEN
  | KEYWORD_ELSE
  | KEYWORD_ELSE_IF
  | KEYWORD_END_IF
  | KEYWORD_FOR
  | KEYWORD_EACH
  | KEYWORD_FROM
  | KEYWORD_CYCLE
  | KEYWORD_END_CYCLE
  | KEYWORD_WHILE
  | KEYWORD_TO
  | KEYWORD_TRY
  | KEYWORD_EXCEPTION
  | KEYWORD_END_TRY
  | KEYWORD_BREAK
  | KEYWORD_CONTINUE
  | KEYWORD_RAISE
  | KEYWORD_VAR
  | KEYWORD_VAL
  | KEYWORD_NEW
  | KEYWORD_RETURN
  | KEYWORD_EXPORT
  | KEYWORD_ASYNC
  | KEYWORD_AWAIT
  | KEYWORD_AND
  | KEYWORD_OR
  | KEYWORD_NOT
  | KEYWORD_TRUE
  | KEYWORD_FALSE
  | KEYWORD_UNDEFINED
  | OP_PLUS
  | OP_MINUS
  | OP_MULTIPLY
  | OP_DIVIDE
  | OP_MODULO
  | OP_ASSIGN
  | OP_NOT_EQUALS
  | OP_LESS
  | OP_GREATER
  | OP_LESS_EQUAL
  | OP_GREATER_EQUAL
  | OP_TERNARY
  | DELIMITER_SEMICOLON
  | DELIMITER_COMMA
  | DELIMITER_DOT
  | DELIMITER_LPAREN
  | DELIMITER_RPAREN
  | DELIMITER_LBRACKET
  | DELIMITER_RBRACKET
  | DELIMITER_PIPE
  | LITERAL_STRING
  | LITERAL_NUMBER
  | LITERAL_DATE
  | IDENTIFIER
  | ANNOT
  | PREPROCESSOR_IF
  | PREPROCESSOR_ELSE
  | PREPROCESSOR_ENDIF
  | COMMENT
  | NEWLINE
  | EOF
  | WHITESPACE
deriving DecidableEq, Repr

/-- The Python enum member name (TokenType.<member>.name), used by the
parser through type.name.startswith checks. -/
def ttName : TokenType → String
  | .KEYWORD_PROCEDURE => "KEYWORD_PROCEDURE"
  | .KEYWORD_FUNCTION => "KEYWORD_FUNCTION"
  | .KEYWORD_END_PROCEDURE => "KEYWORD_END_PROCEDURE"
  | .KEYWORD_END_FUNCTION => "KEYWORD_END_FUNCTION"
  | .KEYWORD_IF => "KEYWORD_IF"
  | .KEYWORD_THEN => "KEYWORD_THEN"
  | .KEYWORD_ELSE => "KEYWORD_ELSE"
  | .KEYWORD_ELSE_IF => "KEYWORD_ELSE_IF"
  | .KEYWORD_END_IF => "KEYWORD_END_IF"
  | .KEYWORD_FOR => "KEYWORD_FOR"
  | .KEYWORD_EACH => "KEYWORD_EACH"
  | .KEYWORD_FROM => "KEYWORD_FROM"
  | .KEYWORD_CYCLE => "KEYWORD_CYCLE"
  | .KEYWORD_END_CYCLE => "KEYWORD_END_CYCLE"
  | .KEYWORD_WHILE => "KEYWORD_WHILE"
  | .KEYWORD_TO => "KEYWORD_TO"
  | .KEYWORD_TRY => "KEYWORD_TRY"
  | .KEYWORD_EXCEPTION => "KEYWORD_EXCEPTION"
  | .KEYWORD_END_TRY => "KEYWORD_END_TRY"
  | .KEYWORD_BREAK => "KEYWORD_BREAK"
  | .KEYWORD_CONTINUE => "KEYWORD_CONTINUE"
  | .KEYWORD_RAISE => "KEYWORD_RAISE"
  | .KEYWORD_VAR => "KEYWORD_VAR"
  | .KEYWORD_VAL => "KEYWORD_VAL"
  | .KEYWORD_NEW => "KEYWORD_NEW"
  | .KEYWORD_RETURN => "KEYWORD_RETURN"
  | .KEYWORD_EXPORT => "KEYWORD_EXPORT"
  | .KEYWORD_ASYNC => "KEYWORD_ASYNC"
  | .KEYWORD_AWAIT => "KEYWORD_AWAIT"
  | .KEYWORD_AND => "KEYWORD_AND"
  | .KEYWORD_OR => "KEYWORD_OR"
  | .KEYWORD_NOT => "KEYWORD_NOT"
  | .KEYWORD_TRUE => "KEYWORD_TRUE"
  | .KEYWORD_FALSE => "KEYWORD_FALSE"
  | .KEYWORD_UNDEFINED => "KEYWORD_UNDEFINED"
  | .OP_PLUS => "OP_PLUS"
  | .OP_MINUS => "OP_MINUS"
  | .OP_MULTIPLY => "OP_MULTIPLY"
  | .OP_DIVIDE => "OP_DIVIDE"
  | .OP_MODULO => "OP_MODULO"
  | .OP_ASSIGN => "OP_ASSIGN"
  | .OP_NOT_EQUALS => "OP_NOT_EQUALS"
  | .OP_LESS => "OP_LESS"
  | .OP_GREATER => "OP_GREATER"
  | .OP_LESS_EQUAL => "OP_LESS_EQUAL"
  | .OP_GREATER_EQUAL => "OP_GREATER_EQUAL"
  | .OP_TERNARY => "OP_TERNARY"
  | .DELIMITER_SEMICOLON => "DELIMITER_SEMICOLON"
  | .DELIMITER_COMMA => "DELIMITER_COMMA"
  | .DELIMITER_DOT => "DELIMITER_DOT"
  | .DELIMITER_LPAREN => "DELIMITER_LPAREN"
  | .DELIMITER_RPAREN => "DELIMITER_RPAREN"
  | .DELIMITER_LBRACKET => "DELIMITER_LBRACKET"
  | .DELIMITER_RBRACKET => "DELIMITER_RBRACKET"
  | .DELIMITER_PIPE => "DELIMITER_PIPE"
  | .LITERAL_STRING => "LITERAL_STRING"
  | .LITERAL_NUMBER => "LITERAL_NUMBER"
  | .LITERAL_DATE => "LITERAL_DATE"
  | .IDENTIFIER => "IDENTIFIER"
  | .ANNOT => "ANNOTATION"
  | .PREPROCESSOR_IF => "PREPROCESSOR_IF"
  | .PREPROCESSOR_ELSE => "PREPROCESSOR_ELSE"
  | .PREPROCESSOR_ENDIF => "PREPROCESSOR_ENDIF"
  | .COMMENT => "COMMENT"
  | .NEWLINE => "NEWLINE"
  | .EOF => "EOF"
  | .WHITESPACE => "WHITESPACE"

/-- Token from token.py: kind, original text, 1-indexed position. -/
structure Token where
  type : TokenType
  value : String
  line : Nat
  column : Nat
deriving DecidableEq, Repr

/-- Cyrillic check from Lexer._is_cyrillic: U+0400-04FF or U+0500-052F. -/
def isCyrillic (c : Char) : Bool :=
  (0x400 ≤ c.toNat && c.toNat ≤ 0x4FF) || (0x500 ≤ c.toNat && c.toNat ≤ 0x52F)

/-- Python str.isalpha, modelled on the lexer's identifier alphabet
(ASCII letters plus the Cyrillic ranges accepted by _is_cyrillic). -/
def pyIsAlpha (c : Char) : Bool :=
  (65 ≤ c.toNat && c.toNat ≤ 90) || (97 ≤ c.toNat && c.toNat ≤ 122) || isCyrillic c

/-- Python str.isdigit on ASCII digits. -/
def pyIsDigit (c : Char) : Bool :=
  48 ≤ c.toNat && c.toNat ≤ 57

/-- Python str.isalnum on the same alphabet. -/
def pyIsAlnum (c : Char) : Bool :=
  pyIsAlpha c || pyIsDigit c

/-- Python str.lower per character, modelled on ASCII and the basic
Cyrillic block (the alphabet of this language's keywords and inputs):
A-Z, the U+0410-042F capitals, and the U+0400-040F capitals fold to
their lowercase forms; everything else is unchanged. -/
def pyCharLower (c : Char) : Char :=
  if 65 ≤ c.toNat && c.toNat ≤ 90 then Char.ofNat (c.toNat + 32)
  else if 0x410 ≤ c.toNat && c.toNat ≤ 0x42F then Char.ofNat (c.toNat + 32)
  else if 0x400 ≤ c.toNat && c.toNat ≤ 0x40F then Char.ofNat (c.toNat + 80)
  else c

/-- Python str.lower on a whole string. -/
def pyLowerStr (s : String) : String :=
  ⟨s.data.map pyCharLower⟩

/-- Keyword table KEYWORDS from token.py (original spellings). -/
def KEYWORDS : List (String × TokenType) :=
  [("Процедура", .KEYWORD_PROCEDURE),
   ("Функция", .KEYWORD_FUNCTION),
   ("КонецПроцедуры", .KEYWORD_END_PROCEDURE),
   ("КонецФункции", .KEYWORD_END_FUNCTION),
   ("Если", .KEYWORD_IF),
   ("Тогда", .KEYWORD_THEN),
   ("Иначе", .KEYWORD_ELSE),
   ("ИначеЕсли", .KEYWORD_ELSE_IF),
   ("КонецЕсли", .KEYWORD_END_IF),
   ("Для", .KEYWORD_FOR),
   ("Каждого", .KEYWORD_EACH),
   ("Из", .KEYWORD_FROM),
   ("Цикл", .KEYWORD_CYCLE),
   ("КонецЦикла", .KEYWORD_END_CYCLE),
   ("Пока", .KEYWORD_WHILE),
   ("По", .KEYWORD_TO),
   ("Перем", .KEYWORD_VAR),
   ("Знач", .KEYWORD_VAL),
   ("Новый", .KEYWORD_NEW),
   ("Возврат", .KEYWORD_RETURN),
   ("Экспорт", .KEYWORD_EXPORT),
   ("Попытка", .KEYWORD_TRY),
   ("Исключение", .KEYWORD_EXCEPTION),
   ("КонецПопытки", .KEYWORD_END_TRY),
   ("Прервать", .KEYWORD_BREAK),
   ("Продолжить", .KEYWORD_CONTINUE),
   ("ВызватьИсключение", .KEYWORD_RAISE),
   ("Асинх", .KEYWORD_ASYNC),
   ("Ждать", .KEYWORD_AWAIT),
   ("И", .KEYWORD_AND),
   ("ИЛИ", .KEYWORD_OR),
   ("НЕ", .KEYWORD_NOT),
   ("Истина", .KEYWORD_TRUE),
   ("Ложь", .KEYWORD_FALSE),
   ("Неопределено", .KEYWORD_UNDEFINED)]

/-- KEYWORDS_LOWER from token.py: the same table keyed by lowercased
spelling. -/
def KEYWORDS_LOWER : List (String × TokenType) :=
  KEYWORDS.map (fun p => (pyLowerStr p.1, p.2))

/-- Case-insensitive keyword lookup (value_lower in KEYWORDS_LOWER). -/
def kwLookup (s : String) : Option TokenType :=
  (KEYWORDS_LOWER.find? (fun p => p.1 = s)).map (fun p => p.2)

/-- OPERATORS table from token.py. -/
def OPERATORS : List (String × TokenType) :=
  [("+", .OP_PLUS), ("-", .OP_MINUS), ("*", .OP_MULTIPLY), ("/", .OP_DIVIDE),
   ("%", .OP_MODULO), ("=", .OP_ASSIGN), ("<>", .OP_NOT_EQUALS), ("<", .OP_LESS),
   (">", .OP_GREATER), ("<=", .OP_LESS_EQUAL), (">=", .OP_GREATER_EQUAL),
   ("?", .OP_TERNARY)]

/-- DELIMITERS table from token.py. -/
def DELIMITERS : List (String × TokenType) :=
  [(";", .DELIMITER_SEMICOLON), (",", .DELIMITER_COMMA), (".", .DELIMITER_DOT),
   ("(", .DELIMITER_LPAREN), (")", .DELIMITER_RPAREN), ("[", .DELIMITER_LBRACKET),
   ("]", .DELIMITER_RBRACKET), ("|", .DELIMITER_PIPE)]

/-- Lexical error, from LexerError in lexer.py. -/
structure LexError where
  message : String
  line : Nat
  column : Nat
deriving DecidableEq, Repr

/-- Whitespace skipped between tokens (space, tab, carriage return). -/
def isLexWs (c : Char) : Bool :=
  c = ' ' || c = '\t' || c = '\r'

/-- Character valid inside an identifier (read_identifier_or_keyword's
continue condition: isalnum, underscore, or Cyrillic). -/
def identChar (c : Char) : Bool :=
  pyIsAlnum c || c = '_' || isCyrillic c

/-- The apostrophe delimiting date literals. -/
def quoteChar : Char := Char.ofNat 39

/-- Python str.strip whitespace set (no newline can occur in the
stripped single-line texts of this lexer). -/
def isStripWs (c : Char) : Bool :=
  c = ' ' || c = '\t' || c = '\r'

/-- Python str.strip on a character list. -/
def pyStrip (cs : List Char) : List Char :=
  ((cs.dropWhile isStripWs).reverse.dropWhile isStripWs).reverse

/-- Lexer.skip_whitespace: consume spaces, tabs and carriage returns,
tracking the column (none of them is a newline). -/
def skipWs : List Char → Nat → Nat → (List Char × Nat × Nat)
  | [], line, col => ([], line, col)
  | c :: rest, line, col =>
    if isLexWs c then skipWs rest line (col + 1) else (c :: rest, line, col)

/-- Body of Lexer.read_string after the opening quote: value so far,
with escaped "" collapsing to one quote and embedded newlines kept. -/
def readStringAux (startLine startCol : Nat) :
    List Char → Nat → Nat → List Char → Except LexError (String × List Char × Nat × Nat)
  | [], _, _, _ => .error ⟨"Unterminated string literal", startLine, startCol⟩
  | '"' :: '"' :: rest, line, col, acc =>
    readStringAux startLine startCol rest line (col + 2) (acc ++ ['"'])
  | '"' :: rest, line, col, _acc =>
    .ok (⟨_acc⟩, rest, line, col + 1)
  | '\n' :: rest, line, _, acc =>
    readStringAux startLine startCol rest (line + 1) 1 (acc ++ ['\n'])
  | c :: rest, line, col, acc =>
    readStringAux startLine startCol rest line (col + 1) (acc ++ [c])

/-- Lexer.read_number: digit run, with a dot accepted only once and only
when immediately followed by another digit. -/
def readNumberAux : List Char → Nat → List Char → Bool → (String × List Char × Nat)
  | [], col, acc, _ => (⟨acc⟩, [], col)
  | c :: rest, col, acc, hasDot =>
    if pyIsDigit c then readNumberAux rest (col + 1) (acc ++ [c]) hasDot
    else if c = '.' && !hasDot && (match rest.head? with
            | some d => pyIsDigit d
            | none => false) then
      readNumberAux rest (col + 1) (acc ++ [c]) true
    else (⟨acc⟩, c :: rest, col)

/-- Lexer.read_identifier_or_keyword character loop: take identifier
characters, tracking the column. -/
def readIdentAux : List Char → Nat → List Char → (String × List Char × Nat)
  | [], col, acc => (⟨acc⟩, [], col)
  | c :: rest, col, acc =>
    if identChar c then readIdentAux rest (col + 1) (acc ++ [c])
    else (⟨acc⟩, c :: rest, col)

/-- Lexer.read_comment body after the two slashes: take until newline. -/
def readToEol : List Char → Nat → List Char → (List Char × List Char × Nat)
  | [], col, acc => (acc, [], col)
  | c :: rest, col, acc =>
    if c = '\n' then (acc, c :: rest, col)
    else readToEol rest (col + 1) (acc ++ [c])

/-- Lexer.read_annotation body after the ampersand: isalnum or Cyrillic
characters (no underscore, per the source). -/
def readAnnotAux : List Char → Nat → List Char → (String × List Char × Nat)
  | [], col, acc => (⟨acc⟩, [], col)
  | c :: rest, col, acc =>
    if pyIsAlnum c || isCyrillic c then readAnnotAux rest (col + 1) (acc ++ [c])
    else (⟨acc⟩, c :: rest, col)

/-- Python str.startswith, as an executable character-list check. -/
def strLeads : List Char → List Char → Bool
  | [], _ => true
  | _ :: _, [] => false
  | p :: ps, c :: cs => p = c && strLeads ps cs

/-- Python str.startswith on strings. -/
def pyStartsWith (s pre : String) : Bool :=
  strLeads pre.data s.data

/-- Lexer.read_preprocessor classification: case-insensitive prefix
check on the stripped directive line, defaulting to the if-like kind. -/
def classifyPreproc (value : String) : TokenType :=
  let lower := pyLowerStr value
  if pyStartsWith lower "#если" then .PREPROCESSOR_IF
  else if pyStartsWith lower "#конецесли" then .PREPROCESSOR_ENDIF
  else if pyStartsWith lower "#иначе" then .PREPROCESSOR_ELSE
  else if pyStartsWith lower "#область" then .PREPROCESSOR_IF
  else if pyStartsWith lower "#конецобласти" then .PREPROCESSOR_ENDIF
  else .PREPROCESSOR_IF

/-- Lexer.read_date body after the opening apostrophe: digits until the
closing apostrophe; any other character is an invalid date literal. -/
def readDateAux (startLine startCol : Nat) :
    List Char → Nat → Nat → List Char → Except LexError (String × List Char × Nat)
  | [], _, _, _ => .error ⟨"Unterminated date literal", startLine, startCol⟩
  | c :: rest, line, col, acc =>
    if c = quoteChar then .ok (⟨acc⟩, rest, col + 1)
    else if pyIsDigit c then readDateAux startLine startCol rest line (col + 1) (acc ++ [c])
    else .error ⟨"Invalid date literal: unexpected character " ++ ⟨[c]⟩, line, col⟩

/-- Lexer.read_operator: greedy two-character operators first, then
single-character ones. -/
def readOperator (cs : List Char) : Option (TokenType × String × Nat) :=
  match cs with
  | [] => none
  | c1 :: rest =>
    let twoChar : String :=
      match rest.head? with
      | some c2 => ⟨[c1, c2]⟩
      | none => ⟨[c1]⟩
    match OPERATORS.find? (fun p => p.1 = twoChar), twoChar.data.length with
    | some p, 2 => some (p.2, twoChar, 2)
    | _, _ =>
      match OPERATORS.find? (fun p => p.1 = (⟨[c1]⟩ : String)) with
      | some p => some (p.2, ⟨[c1]⟩, 1)
      | none => none

/-- One iteration of the main loop of Lexer.tokenize: skip whitespace,
then either report that the input is exhausted (the loop breaks and the
caller appends the end-of-input token at the post-whitespace position)
or produce the next token together with the rest of the input and the
updated position. -/
def scanToken (cs : List Char) (line col : Nat) :
    Except LexError (Sum (Nat × Nat) (Token × List Char × Nat × Nat)) :=
  let (cs1, line1, col1) := skipWs cs line col
  match cs1 with
  | [] => .ok (.inl (line1, col1))
  | c :: rest =>
    if c = '\n' then
      .ok (.inr (⟨.NEWLINE, "\\n", line1, col1⟩, rest, line1 + 1, 1))
    else if c = '/' && rest.head? = some '/' then
      let (body, rest2, col2) := readToEol rest.tail (col1 + 2) []
      .ok (.inr (⟨.COMMENT, ⟨pyStrip body⟩, line1, col1⟩, rest2, line1, col2))
    else if c = '"' then
      match readStringAux line1 col1 rest line1 (col1 + 1) [] with
      | .error e => .error e
      | .ok (value, rest2, line2, col2) =>
        .ok (.inr (⟨.LITERAL_STRING, value, line1, col1⟩, rest2, line2, col2))
    else if c = quoteChar then
      match readDateAux line1 col1 rest line1 (col1 + 1) [] with
      | .error e => .error e
      | .ok (value, rest2, col2) =>
        .ok (.inr (⟨.LITERAL_DATE, value, line1, col1⟩, rest2, line1, col2))
    else if c = '&' then
      let (body, rest2, col2) := readAnnotAux rest (col1 + 1) []
      .ok (.inr (⟨.ANNOT, "&" ++ body, line1, col1⟩, rest2, line1, col2))
    else if c = '#' then
      let (body, rest2, col2) := readToEol (c :: rest) col1 []
      let value : String := ⟨pyStrip body⟩
      .ok (.inr (⟨classifyPreproc value, value, line1, col1⟩, rest2, line1, col2))
    else if pyIsDigit c then
      let (value, rest2, col2) := readNumberAux (c :: rest) col1 [] false
      .ok (.inr (⟨.LITERAL_NUMBER, value, line1, col1⟩, rest2, line1, col2))
    else if pyIsAlpha c || c = '_' || isCyrillic c then
      let (value, rest2, col2) := readIdentAux (c :: rest) col1 []
      let ttype : TokenType :=
        match kwLookup (pyLowerStr value) with
        | some k => k
        | none => .IDENTIFIER
      .ok (.inr (⟨ttype, value, line1, col1⟩, rest2, line1, col2))
    else
      match DELIMITERS.find? (fun p => p.1 = (⟨[c]⟩ : String)) with
      | some p => .ok (.inr (⟨p.2, ⟨[c]⟩, line1, col1⟩, rest, line1, col1 + 1))
      | none =>
        match readOperator (c :: rest) with
        | some (ttype, value, n) =>
          .ok (.inr (⟨ttype, value, line1, col1⟩, (c :: rest).drop n, line1, col1 + n))
        | none => .error ⟨"Unexpected character: " ++ ⟨[c]⟩, line1, col1⟩

/-- Main tokenization loop of Lexer.tokenize.  One unit of fuel per loop
iteration; every iteration consumes at least one character, so the entry
point's fuel (length + 1) is never exhausted. -/
def tokenizeAux (fuel : Nat) (cs : List Char) (line col : Nat) :
    Except LexError (List Token) :=
  match cs with
  | [] => .ok [⟨.EOF, "", line, col⟩]
  | _ :: _ =>
    match fuel with
    | 0 => .error ⟨"fuel exhausted", line, col⟩
    | fuel' + 1 =>
      match scanToken cs line col with
      | .error e => .error e
      | .ok (.inl (line1, col1)) => .ok [⟨.EOF, "", line1, col1⟩]
      | .ok (.inr (tok, rest, line2, col2)) =>
        (tokenizeAux fuel' rest line2 col2).map (fun ts => tok :: ts)

/-- Strip a leading byte-order mark, as in Lexer.__init__. -/
def stripBom (cs : List Char) : List Char :=
  match cs with
  | c :: rest => if c.toNat = 0xFEFF then rest else c :: rest
  | [] => []

/-- Lexer.tokenize on a source string. -/
def tokenize (src : String) : Except LexError (List Token) :=
  let cs := stripBom src.data
  tokenizeAux (cs.length + 1) cs 1 1

/-- Lexer.tokenize_without_whitespace: tokenize, then drop newline and
comment tokens. -/
def tokenizeWithoutWhitespace (src : String) : Except LexError (List Token) :=
  (tokenize src).map
    (fun ts => ts.filter (fun t => !(t.type = .NEWLINE || t.type = .COMMENT)))

/-! AST node model, from ast_nodes.py.  Literal payloads keep Python's
dynamic typing as a closed variant; int(token.value) falling back to
float is modelled by keeping the raw text when the digits-only
conversion fails. -/

/-- Python literal payload values. -/
inductive PyVal where
  | pyInt (n : Nat)
  | pyFloat (raw : String)
  | pyStr (s : String)
  | pyBool (b : Bool)
  | pyNone
deriving DecidableEq, Repr

/-- Decimal value of a digit run. -/
def digitsVal (cs : List Char) : Nat :=
  cs.foldl (fun a c => a * 10 + (c.toNat - 48)) 0

/-- Number-literal payload: int(text) if the text is all digits, else
the float fallback keeps the raw text. -/
def numLitVal (s : String) : PyVal :=
  if s.data ≠ [] && s.data.all pyIsDigit then .pyInt (digitsVal s.data)
  else .pyFloat s

/-- Expression nodes from ast_nodes.py (each carries line, column). -/
inductive Expr where
  | binaryOp (left : Expr) (operator : String) (right : Expr) (line column : Nat)
  | unaryOp (operator : String) (operand : Expr) (line column : Nat)
  | ternary (condition trueValue falseValue : Expr) (line column : Nat)
  | call (function : Expr) (arguments : List Expr) (line column : Nat)
  | memberAccess (object : Expr) (member : String) (line column : Nat)
  | indexAccess (object index : Expr) (line column : Nat)
  | newExpr (typeName : String) (arguments : List Expr) (line column : Nat)
  | identifier (name : String) (line column : Nat)
  | literal (value : PyVal) (literalType : String) (line column : Nat)
deriving Repr

/-- Source line of an expression node. -/
def Expr.line : Expr → Nat
  | .binaryOp _ _ _ l _ => l
  | .unaryOp _ _ l _ => l
  | .ternary _ _ _ l _ => l
  | .call _ _ l _ => l
  | .memberAccess _ _ l _ => l
  | .indexAccess _ _ l _ => l
  | .newExpr _ _ l _ => l
  | .identifier _ l _ => l
  | .literal _ _ l _ => l

/-- Source column of an expression node. -/
def Expr.column : Expr → Nat
  | .binaryOp _ _ _ _ c => c
  | .unaryOp _ _ _ c => c
  | .ternary _ _ _ _ c => c
  | .call _ _ _ c => c
  | .memberAccess _ _ _ c => c
  | .indexAccess _ _ _ c => c
  | .newExpr _ _ _ c => c
  | .identifier _ _ c => c
  | .literal _ _ _ c => c

/-- VarDeclarationNode from ast_nodes.py. -/
structure VarDeclarationNode where
  names : List String
  line : Nat
  column : Nat
deriving Repr

/-- Statement nodes from ast_nodes.py. -/
inductive Stmt where
  | varDecl (decl : VarDeclarationNode)
  | assignment (target value : Expr) (line column : Nat)
  | ifStmt (condition : Expr) (thenBody : List Stmt)
      (elifBranches : List (Expr × List Stmt)) (elseBody : Option (List Stmt))
      (line column : Nat)
  | whileStmt (condition : Expr) (body : List Stmt) (line column : Nat)
  | forStmt (varName : String) (startE endE : Expr) (body : List Stmt) (line column : Nat)
  | forEachStmt (varName : String) (collection : Expr) (body : List Stmt) (line column : Nat)
  | tryStmt (tryBody exceptBody : List Stmt) (line column : Nat)
  | returnStmt (value : Option Expr) (line column : Nat)
  | breakStmt (line column : Nat)
  | continueStmt (line column : Nat)
  | raiseStmt (expression : Option Expr) (line column : Nat)
  | awaitStmt (expression : Expr) (line column : Nat)
  | exprStmt (expression : Expr) (line column : Nat)
deriving Repr

/-- ParameterNode from ast_nodes.py. -/
structure ParameterNode where
  name : String
  defaultValue : Option Expr := none
  byVal : Bool := false
  line : Nat
  column : Nat
deriving Repr

/-- FunctionNode from ast_nodes.py (annot is the source's annotation
field). -/
structure FunctionNode where
  name : String
  parameters : List ParameterNode := []
  body : List Stmt := []
  isExport : Bool := false
  isAsync : Bool := false
  annot : Option String := none
  line : Nat := 0
  column : Nat := 0
deriving Repr

/-- ProcedureNode from ast_nodes.py. -/
structure ProcedureNode where
  name : String
  parameters : List ParameterNode := []
  body : List Stmt := []
  isExport : Bool := false
  isAsync : Bool := false
  annot : Option String := none
  line : Nat := 0
  column : Nat := 0
deriving Repr

/-- ModuleNode from ast_nodes.py. -/
structure ModuleNode where
  varDeclarations : List VarDeclarationNode := []
  functions : List FunctionNode := []
  procedures : List ProcedureNode := []
  statements : List Stmt := []
  line : Nat := 0
  column : Nat := 0
deriving Repr

/-! Parser, from parser.py: precedence table, token-stream helpers, and
the expression subsystem including parse_expression_or_assignment with
its duplicated statement-level climbing loop. -/

/-- PRECEDENCE table from parser.py. -/
def PRECEDENCE : List (String × Nat) :=
  [("ИЛИ", 1), ("И", 2), ("НЕ", 3),
   ("=", 4), ("<>", 4), ("<", 4), (">", 4), ("<=", 4), (">=", 4),
   ("+", 5), ("-", 5),
   ("*", 6), ("/", 6), ("%", 6)]

/-- Membership test "value in PRECEDENCE". -/
def memPrec (v : String) : Bool :=
  (PRECEDENCE.find? (fun p => p.1 = v)).isSome

/-- Lookup PRECEDENCE[op]. -/
def precOf (op : String) : Option Nat :=
  (PRECEDENCE.find? (fun p => p.1 = op)).map (fun p => p.2)

/-- Parser error, from ParserError in parser.py. -/
structure PErr where
  message : String
  token : Token
deriving Repr

/-- Parser result: value plus the token index after it. -/
abbrev PRes (α : Type) := Except PErr (α × Nat)

/-- Placeholder token used only when peeking an empty token list (the
Python code indexes tokens[-1], which presupposes a nonempty list). -/
def dummyToken : Token := ⟨.EOF, "", 0, 0⟩

/-- Parser.peek: token at pos, or the last token once past the end. -/
def peekTok (ts : List Token) (pos : Nat) : Token :=
  match ts.get? pos with
  | some t => t
  | none => (ts.getLast?).getD dummyToken

/-- Parser.advance: move past the current token unless it is EOF. -/
def advanceP (ts : List Token) (pos : Nat) : Nat :=
  if (peekTok ts pos).type = .EOF then pos else pos + 1

/-- Loop body of Parser.skip_newlines with explicit fuel. -/
def skipNlAux (ts : List Token) : Nat → Nat → Nat
  | 0, pos => pos
  | fuel + 1, pos =>
    let t := peekTok ts pos
    if t.type = .NEWLINE || t.type = .COMMENT then
      skipNlAux ts fuel (advanceP ts pos)
    else pos

/-- Parser.skip_newlines: skip newline and comment tokens. -/
def skipNewlines (ts : List Token) (pos : Nat) : Nat :=
  skipNlAux ts (ts.length + 1) pos

/-- Parser.expect: consume the current token if it has the wanted type,
else fail. -/
def expectTok (ts : List Token) (pos : Nat) (tt : TokenType) : PRes Token :=
  let t := peekTok ts pos
  if t.type = tt then .ok (t, advanceP ts pos)
  else .error ⟨"Expected " ++ ttName tt ++ ", got " ++ ttName t.type, t⟩

/-- Operator determination shared by both climbing loops: canonical И /
ИЛИ for the keyword forms, the token text for OP_-kinded tokens. -/
def opOf (t : Token) : Option String :=
  if t.type = .KEYWORD_AND then some "И"
  else if t.type = .KEYWORD_OR then some "ИЛИ"
  else if pyStartsWith (ttName t.type) "OP_" then some t.value
  else none

mutual

/-- Parser.parse_primary_expression.  Fuel counts remaining recursion
depth: every mutually recursive call consumes one unit, and zero fuel is
a parse failure that never occurs at the adequate fuel used by the entry
points. -/
def parsePrimary : Nat → List Token → Nat → PRes Expr
  | 0, ts, pos => .error ⟨"fuel", peekTok ts pos⟩
  | f + 1, ts, pos =>
    let t := peekTok ts pos
    if t.type = .OP_TERNARY then
      parseTernaryExpr f ts pos
    else if t.type = .DELIMITER_LPAREN then
      let p1 := advanceP ts pos
      match parseBinaryExpr f ts p1 0 with
      | .error e => .error e
      | .ok (e, p2) =>
        match expectTok ts p2 .DELIMITER_RPAREN with
        | .error e' => .error e'
        | .ok (_, p3) => .ok (e, p3)
    else if t.type = .LITERAL_STRING then
      .ok (.literal (.pyStr t.value) "string" t.line t.column, advanceP ts pos)
    else if t.type = .LITERAL_NUMBER then
      .ok (.literal (numLitVal t.value) "number" t.line t.column, advanceP ts pos)
    else if t.type = .LITERAL_DATE then
      .ok (.literal (.pyStr t.value) "date" t.line t.column, advanceP ts pos)
    else if t.type = .KEYWORD_TRUE then
      .ok (.literal (.pyBool true) "boolean" t.line t.column, advanceP ts pos)
    else if t.type = .KEYWORD_FALSE then
      .ok (.literal (.pyBool false) "boolean" t.line t.column, advanceP ts pos)
    else if t.type = .KEYWORD_UNDEFINED then
      .ok (.literal .pyNone "undefined" t.line t.column, advanceP ts pos)
    else if t.type = .KEYWORD_NEW then
      parseNewExpr f ts pos
    else if t.type = .IDENTIFIER then
      .ok (.identifier t.value t.line t.column, advanceP ts pos)
    else
      .error ⟨"Unexpected token in expression: " ++ t.value, t⟩
termination_by structural fuel ts pos => fuel

/-- Parser.parse_ternary_expression (the three operands are full
parse_expression calls, i.e. parse_binary_expression at precedence 0). -/
def parseTernaryExpr : Nat → List Token → Nat → PRes Expr
  | 0, ts, pos => .error ⟨"fuel", peekTok ts pos⟩
  | f + 1, ts, pos =>
    match expectTok ts pos .OP_TERNARY with
    | .error e => .error e
    | .ok (t, p1) =>
      match expectTok ts p1 .DELIMITER_LPAREN with
      | .error e => .error e
      | .ok (_, p2) =>
        match parseBinaryExpr f ts p2 0 with
        | .error e => .error e
        | .ok (cond, p3) =>
          match expectTok ts p3 .DELIMITER_COMMA with
          | .error e => .error e
          | .ok (_, p4) =>
            let p5 := skipNewlines ts p4
            match parseBinaryExpr f ts p5 0 with
            | .error e => .error e
            | .ok (tv, p6) =>
              match expectTok ts p6 .DELIMITER_COMMA with
              | .error e => .error e
              | .ok (_, p7) =>
                let p8 := skipNewlines ts p7
                match parseBinaryExpr f ts p8 0 with
                | .error e => .error e
                | .ok (fv, p9) =>
                  match expectTok ts p9 .DELIMITER_RPAREN with
                  | .error e => .error e
                  | .ok (_, p10) =>
                    .ok (.ternary cond tv fv t.line t.column, p10)
termination_by structural fuel ts pos => fuel

/-- Parser.parse_new_expression. -/
def parseNewExpr : Nat → List Token → Nat → PRes Expr
  | 0, ts, pos => .error ⟨"fuel", peekTok ts pos⟩
  | f + 1, ts, pos =>
    match expectTok ts pos .KEYWORD_NEW with
    | .error e => .error e
    | .ok (t, p1) =>
      match expectTok ts p1 .IDENTIFIER with
      | .error e => .error e
      | .ok (typeTok, p2) =>
        if (peekTok ts p2).type = .DELIMITER_LPAREN then
          let p3 := advanceP ts p2
          match (if (peekTok ts p3).type = .DELIMITER_RPAREN then .ok ([], p3)
                 else parseArguments f ts p3) with
          | .error e => .error e
          | .ok (args, p4) =>
            match expectTok ts p4 .DELIMITER_RPAREN with
            | .error e => .error e
            | .ok (_, p5) => .ok (.newExpr typeTok.value args t.line t.column, p5)
        else
          .ok (.newExpr typeTok.value [] t.line t.column, p2)
termination_by structural fuel ts pos => fuel

/-- Parser.parse_arguments: first argument plus the comma loop. -/
def parseArguments : Nat → List Token → Nat → PRes (List Expr)
  | 0, ts, pos => .error ⟨"fuel", peekTok ts pos⟩
  | f + 1, ts, pos =>
    match parseBinaryExpr f ts pos 0 with
    | .error e => .error e
    | .ok (e, p1) => argsLoop f ts [e] p1
termination_by structural fuel ts pos => fuel

/-- Comma loop of Parser.parse_arguments. -/
def argsLoop : Nat → List Token → List Expr → Nat → PRes (List Expr)
  | 0, ts, _, pos => .error ⟨"fuel", peekTok ts pos⟩
  | f + 1, ts, args, pos =>
    if (peekTok ts pos).type = .DELIMITER_COMMA then
      let p1 := advanceP ts pos
      let p2 := skipNewlines ts p1
      match parseBinaryExpr f ts p2 0 with
      | .error e => .error e
      | .ok (e, p3) => argsLoop f ts (args ++ [e]) p3
    else .ok (args, pos)
termination_by structural fuel ts args pos => fuel

/-- Postfix chain loop of Parser.parse_postfix_expression (member
access, calls, indexing). -/
def postfixLoop : Nat → List Token → Expr → Nat → PRes Expr
  | 0, ts, _, pos => .error ⟨"fuel", peekTok ts pos⟩
  | f + 1, ts, e, pos =>
    let t := peekTok ts pos
    if t.type = .DELIMITER_DOT then
      let p1 := advanceP ts pos
      match expectTok ts p1 .IDENTIFIER with
      | .error e' => .error e'
      | .ok (memberTok, p2) =>
        postfixLoop f ts (.memberAccess e memberTok.value t.line t.column) p2
    else if t.type = .DELIMITER_LPAREN then
      let p1 := advanceP ts pos
      match (if (peekTok ts p1).type = .DELIMITER_RPAREN then .ok ([], p1)
             else parseArguments f ts p1) with
      | .error e' => .error e'
      | .ok (args, p2) =>
        match expectTok ts p2 .DELIMITER_RPAREN with
        | .error e' => .error e'
        | .ok (_, p3) => postfixLoop f ts (.call e args t.line t.column) p3
    else if t.type = .DELIMITER_LBRACKET then
      let p1 := advanceP ts pos
      match parseBinaryExpr f ts p1 0 with
      | .error e' => .error e'
      | .ok (idx, p2) =>
        match expectTok ts p2 .DELIMITER_RBRACKET with
        | .error e' => .error e'
        | .ok (_, p3) => postfixLoop f ts (.indexAccess e idx t.line t.column) p3
    else .ok (e, pos)
termination_by structural fuel ts e pos => fuel

/-- Parser.parse_postfix_expression: primary then the postfix chain. -/
def parsePostfixExpr : Nat → List Token → Nat → PRes Expr
  | 0, ts, pos => .error ⟨"fuel", peekTok ts pos⟩
  | f + 1, ts, pos =>
    match parsePrimary f ts pos with
    | .error e => .error e
    | .ok (e, p) => postfixLoop f ts e p
termination_by structural fuel ts pos => fuel

/-- Parser.parse_unary_expression. -/
def parseUnary : Nat → List Token → Nat → PRes Expr
  | 0, ts, pos => .error ⟨"fuel", peekTok ts pos⟩
  | f + 1, ts, pos =>
    let t := peekTok ts pos
    if t.type = .KEYWORD_NOT then
      match parseUnary f ts (advanceP ts pos) with
      | .error e => .error e
      | .ok (operand, p) => .ok (.unaryOp "НЕ" operand t.line t.column, p)
    else if t.type = .OP_MINUS then
      match parseUnary f ts (advanceP ts pos) with
      | .error e => .error e
      | .ok (operand, p) => .ok (.unaryOp "-" operand t.line t.column, p)
    else parsePostfixExpr f ts pos
termination_by structural fuel ts pos => fuel

/-- While-loop of Parser.parse_binary_expression: precedence climbing
from an already-parsed left operand, honouring min_precedence and
skipping newlines at the loop head and before the right operand. -/
def binLoop : Nat → List Token → Expr → Nat → Nat → PRes Expr
  | 0, ts, _, pos, _ => .error ⟨"fuel", peekTok ts pos⟩
  | f + 1, ts, left, pos, minPrec =>
    let p1 := skipNewlines ts pos
    let opTok := peekTok ts p1
    match opOf opTok with
    | none => .ok (left, p1)
    | some op =>
      match precOf op with
      | none => .ok (left, p1)
      | some prec =>
        if prec < minPrec then .ok (left, p1)
        else
          let p2 := advanceP ts p1
          let p3 := skipNewlines ts p2
          match parseBinaryExpr f ts p3 (prec + 1) with
          | .error e => .error e
          | .ok (right, p4) =>
            binLoop f ts (.binaryOp left op right opTok.line opTok.column) p4 minPrec
termination_by structural fuel ts left pos minPrec => fuel

/-- Parser.parse_binary_expression. -/
def parseBinaryExpr : Nat → List Token → Nat → Nat → PRes Expr
  | 0, ts, pos, _ => .error ⟨"fuel", peekTok ts pos⟩
  | f + 1, ts, pos, minPrec =>
    match parseUnary f ts pos with
    | .error e => .error e
    | .ok (left, p) => binLoop f ts left p minPrec
termination_by structural fuel ts pos minPrec => fuel

/-- Statement-level climbing loop duplicated inside
Parser.parse_expression_or_assignment: identical to binLoop except that
it has no min_precedence bound and never skips newlines. -/
def stmtClimb : Nat → List Token → Expr → Nat → PRes Expr
  | 0, ts, _, pos => .error ⟨"fuel", peekTok ts pos⟩
  | f + 1, ts, left, pos =>
    let opTok := peekTok ts pos
    match opOf opTok with
    | none => .ok (left, pos)
    | some op =>
      match precOf op with
      | none => .ok (left, pos)
      | some prec =>
        let p2 := advanceP ts pos
        match parseBinaryExpr f ts p2 (prec + 1) with
        | .error e => .error e
        | .ok (right, p4) =>
          stmtClimb f ts (.binaryOp left op right opTok.line opTok.column) p4
termination_by structural fuel ts left pos => fuel

end

/-- Parser.parse_expression: parse_binary_expression at precedence 0. -/
def parseExpression (fuel : Nat) (ts : List Token) (pos : Nat) : PRes Expr :=
  parseBinaryExpr fuel ts pos 0

/-- Parser.parse_expression_or_assignment: postfix probe, assignment on
OP_ASSIGN, otherwise resume climbing when a PRECEDENCE operator (or the
и/или keywords) follows, then require a semicolon. -/
def parseExprOrAssign (fuel : Nat) (ts : List Token) (pos : Nat) : PRes Stmt :=
  match parsePostfixExpr fuel ts pos with
  | .error e => .error e
  | .ok (expr, p0) =>
    if (peekTok ts p0).type = .OP_ASSIGN then
      let p1 := advanceP ts p0
      match parseExpression fuel ts p1 with
      | .error e => .error e
      | .ok (value, p2) =>
        match expectTok ts p2 .DELIMITER_SEMICOLON with
        | .error e => .error e
        | .ok (_, p3) => .ok (.assignment expr value expr.line expr.column, p3)
    else
      let t := peekTok ts p0
      match (if memPrec t.value || t.type = .KEYWORD_AND || t.type = .KEYWORD_OR then
               stmtClimb fuel ts expr p0
             else .ok (expr, p0)) with
      | .error e => .error e
      | .ok (expr1, p1) =>
        match expectTok ts p1 .DELIMITER_SEMICOLON with
        | .error e => .error e
        | .ok (_, p2) => .ok (.exprStmt expr1 expr1.line expr1.column, p2)

/-! Symbol table and semantic analysis, from symbol_table.py, errors.py,
checkers/undefined_variable.py and semantic_analyzer.py. -/

/-- Symbol from symbol_table.py. -/
structure Symbol where
  name : String
  kind : String
  line : Nat
  column : Nat
  scopeLevel : Nat
  isBuiltin : Bool := false
deriving DecidableEq, Repr

/-- One scope: Python dict keyed by lowercased name, kept as an
insertion-ordered association list with dict assignment semantics. -/
abbrev Scope := List (String × Symbol)

/-- Python dict assignment: overwrite in place if the key exists,
otherwise append. -/
def scopeSet (sc : Scope) (k : String) (v : Symbol) : Scope :=
  if sc.any (fun p => p.1 = k) then
    sc.map (fun p => if p.1 = k then (k, v) else p)
  else sc ++ [(k, v)]

/-- Python dict lookup in one scope. -/
def scopeGet (sc : Scope) (k : String) : Option Symbol :=
  (sc.find? (fun p => p.1 = k)).map (fun p => p.2)

/-- SymbolTable from symbol_table.py.  The source stores the scope
stack as a Python list with the module scope first and the innermost
scope last, looked up via reversed(); here the list is kept
innermost-first, so the head is the current scope and lookup is a
front-to-back search. -/
structure SymbolTable where
  scopes : List Scope
  currentScopeLevel : Nat
  builtinsCount : Nat
deriving DecidableEq, Repr

/-- SymbolTable.enter_scope. -/
def SymbolTable.enterScope (tab : SymbolTable) : SymbolTable :=
  { tab with scopes := [] :: tab.scopes, currentScopeLevel := tab.currentScopeLevel + 1 }

/-- SymbolTable.exit_scope: pop unless at the module level. -/
def SymbolTable.exitScope (tab : SymbolTable) : SymbolTable :=
  match tab.scopes with
  | top :: next :: rest =>
    let _ := top
    { tab with scopes := next :: rest, currentScopeLevel := tab.currentScopeLevel - 1 }
  | _ => tab

/-- SymbolTable.define: insert under the lowercased key into the
current (innermost) scope. -/
def SymbolTable.define (tab : SymbolTable) (name : String) (sym : Symbol) : SymbolTable :=
  match tab.scopes with
  | [] => tab
  | top :: rest => { tab with scopes := scopeSet top (pyLowerStr name) sym :: rest }

/-- Search all scopes from innermost to outermost (scopeGet per scope). -/
def scopesFind : List Scope → String → Option Symbol
  | [], _ => none
  | sc :: rest, k =>
    match scopeGet sc k with
    | some s => some s
    | none => scopesFind rest k

/-- SymbolTable.lookup: case-insensitive search from innermost to
outermost scope. -/
def SymbolTable.lookupSym (tab : SymbolTable) (name : String) : Option Symbol :=
  scopesFind tab.scopes (pyLowerStr name)

/-- BuiltinInfo from builtins/registry.py. -/
structure BuiltinInfo where
  nameRu : String
  nameEn : String
  category : String
deriving DecidableEq, Repr

/-- BuiltinRegistry from builtins/registry.py: two maps keyed by
lowercase name, kept as association lists. -/
structure BuiltinRegistry where
  functions : List (String × BuiltinInfo)
  types : List (String × BuiltinInfo)
deriving DecidableEq, Repr

/-- One insertion of SymbolTable._populate_builtins: the key is the
registry key as given (already lowercase in the cache), the symbol name
is info.name_ru or the key when empty (Python falsy-or). -/
def populateStep (kind : String) (acc : Scope × Nat) (p : String × BuiltinInfo) :
    Scope × Nat :=
  (scopeSet acc.1 p.1
    ⟨(if p.2.nameRu = "" then p.1 else p.2.nameRu), kind, 0, 0, 0, true⟩,
   acc.2 + 1)

/-- SymbolTable.__init__ (+ _populate_builtins when a registry is
supplied): a single module-level scope, pre-seeded with builtin
functions and types. -/
def newSymbolTable (builtins : Option BuiltinRegistry) : SymbolTable :=
  match builtins with
  | none => ⟨[[]], 0, 0⟩
  | some reg =>
    let fns := reg.functions.foldl (populateStep "builtin_function") ([], 0)
    let all := reg.types.foldl (populateStep "builtin_type") fns
    ⟨[all.1], 0, all.2⟩

/-- SemanticError from errors.py. -/
structure SemanticError where
  message : String
  line : Nat
  column : Nat
  errorType : String
deriving DecidableEq, Repr

/-- The undefined-variable diagnostic of visit_IdentifierNode. -/
def undefinedVarError (name : String) (l c : Nat) : SemanticError :=
  ⟨"Undefined variable " ++ quoteChar.toString ++ name ++ quoteChar.toString,
   l, c, "undefined_variable"⟩

/-- The call-to-undefined-function diagnostic of visit_CallNode. -/
def undefinedCallError (name : String) (l c : Nat) : SemanticError :=
  ⟨"Call to undefined function " ++ quoteChar.toString ++ name ++ quoteChar.toString,
   l, c, "undefined_variable"⟩

/-- The unknown-type diagnostic of visit_NewNode. -/
def unknownTypeError (name : String) (l c : Nat) : SemanticError :=
  ⟨"Unknown type " ++ quoteChar.toString ++ name ++ quoteChar.toString,
   l, c, "undefined_type"⟩

/-- The invalid-root diagnostic of SemanticAnalyzer.analyze. -/
def invalidAstError : SemanticError :=
  ⟨"Expected ModuleNode as root of AST", 0, 0, "invalid_ast"⟩

/-! Pass 1: VariableCollector. -/

/-- VariableCollector.visit_VarDeclarationNode. -/
def collectVarDecl (d : VarDeclarationNode) (tab : SymbolTable) : SymbolTable :=
  d.names.foldl
    (fun t n => t.define n ⟨n, "variable", d.line, d.column, t.currentScopeLevel, false⟩)
    tab

/-- Whether the Python dataclass of this statement has a field named
body (the hasattr(stmt, 'body') probe of the collector): only while,
numeric-for and for-each statements do; if and try have then_body /
elif_branches / else_body and try_body / except_body instead. -/
def hasBodyAttr : Stmt → Bool
  | .whileStmt .. => true
  | .forStmt .. => true
  | .forEachStmt .. => true
  | _ => false

mutual

/-- The per-statement dispatch the collector repeats in each of its
body loops: variable declarations are collected, for / for-each loops
are visited, and otherwise _collect_vars_from_body is entered only when
the statement has a body attribute.  _collect_vars_from_body is inlined
under that guard; its if / try branches mirror the source but are
unreachable, because those node kinds have no field named body. -/
def collectBodyStmt (s : Stmt) (tab : SymbolTable) : SymbolTable :=
  match s with
  | .varDecl d => collectVarDecl d tab
  | .forStmt v _ _ body l c =>
    collectBodyList body
      (tab.define v ⟨v, "loop_variable", l, c, tab.currentScopeLevel, false⟩)
  | .forEachStmt v _ body l c =>
    collectBodyList body
      (tab.define v ⟨v, "loop_variable", l, c, tab.currentScopeLevel, false⟩)
  | s' =>
    if hasBodyAttr s' then
      match s' with
      | .ifStmt _ thenB elifs elseB _ _ =>
        let t1 := collectBodyList thenB tab
        let t2 := collectElifBodies elifs t1
        (match elseB with
         | some b => collectBodyList b t2
         | none => t2)
      | .whileStmt _ body _ _ => collectBodyList body tab
      | .tryStmt tb eb _ _ => collectBodyList eb (collectBodyList tb tab)
      | _ => tab
    else tab

/-- One statement-list loop of the collector. -/
def collectBodyList (body : List Stmt) (tab : SymbolTable) : SymbolTable :=
  match body with
  | [] => tab
  | s :: rest => collectBodyList rest (collectBodyStmt s tab)

/-- Elif-branch loop of _collect_vars_from_body. -/
def collectElifBodies (branches : List (Expr × List Stmt)) (tab : SymbolTable) :
    SymbolTable :=
  match branches with
  | [] => tab
  | (_, b) :: rest => collectElifBodies rest (collectBodyList b tab)

end

/-- VariableCollector.visit_FunctionNode up to (but excluding) the
final exit_scope: enter the function scope, define parameters, collect
local declarations from the body. -/
def collectFunctionOpen (params : List ParameterNode) (body : List Stmt)
    (tab : SymbolTable) : SymbolTable :=
  let tab1 := tab.enterScope
  let tab2 := params.foldl
    (fun t p => t.define p.name ⟨p.name, "parameter", p.line, p.column, t.currentScopeLevel, false⟩)
    tab1
  collectBodyList body tab2

/-- VariableCollector.visit_FunctionNode. -/
def collectFunction (f : FunctionNode) (tab : SymbolTable) : SymbolTable :=
  (collectFunctionOpen f.parameters f.body tab).exitScope

/-- VariableCollector.visit_ProcedureNode. -/
def collectProcedure (p : ProcedureNode) (tab : SymbolTable) : SymbolTable :=
  (collectFunctionOpen p.parameters p.body tab).exitScope

/-- VariableCollector.visit_ModuleNode: module variables, then all
function and procedure names, then the function and procedure bodies. -/
def collectModule (m : ModuleNode) (builtins : Option BuiltinRegistry) : SymbolTable :=
  let tab0 := newSymbolTable builtins
  let tab1 := m.varDeclarations.foldl (fun t d => collectVarDecl d t) tab0
  let tab2 := m.functions.foldl
    (fun t f => t.define f.name ⟨f.name, "function", f.line, f.column, t.currentScopeLevel, false⟩)
    tab1
  let tab3 := m.procedures.foldl
    (fun t p => t.define p.name ⟨p.name, "procedure", p.line, p.column, t.currentScopeLevel, false⟩)
    tab2
  let tab4 := m.functions.foldl (fun t f => collectFunction f t) tab3
  m.procedures.foldl (fun t p => collectProcedure p t) tab4

/-! Pass 2: UndefinedVariableChecker. -/

/-- Checker state: the shared symbol table plus the accumulated error
list. -/
structure ChkState where
  tab : SymbolTable
  errors : List SemanticError
deriving Repr

/-- Append one diagnostic. -/
def ChkState.addError (st : ChkState) (e : SemanticError) : ChkState :=
  { st with errors := st.errors ++ [e] }

/-- Define a symbol in the current scope. -/
def ChkState.defineSym (st : ChkState) (name : String) (sym : Symbol) : ChkState :=
  { st with tab := st.tab.define name sym }

mutual

/-- UndefinedVariableChecker._recollect_local_vars. -/
def recollectLocalVars (body : List Stmt) (tab : SymbolTable) : SymbolTable :=
  match body with
  | [] => tab
  | s :: rest => recollectLocalVars rest (recollectStmt s tab)

/-- One statement of _recollect_local_vars. -/
def recollectStmt (s : Stmt) (tab : SymbolTable) : SymbolTable :=
  match s with
  | .varDecl d =>
    d.names.foldl
      (fun t n => t.define n ⟨n, "variable", d.line, d.column, t.currentScopeLevel, false⟩)
      tab
  | .forStmt v _ _ body l c =>
    recollectLocalVars body
      (tab.define v ⟨v, "loop_variable", l, c, tab.currentScopeLevel, false⟩)
  | .forEachStmt v _ body l c =>
    recollectLocalVars body
      (tab.define v ⟨v, "loop_variable", l, c, tab.currentScopeLevel, false⟩)
  | .ifStmt _ thenB elifs elseB _ _ =>
    let t1 := recollectLocalVars thenB tab
    let t2 := recollectElifs elifs t1
    match elseB with
    | some b => recollectLocalVars b t2
    | none => t2
  | .whileStmt _ body _ _ => recollectLocalVars body tab
  | .tryStmt tb eb _ _ => recollectLocalVars eb (recollectLocalVars tb tab)
  | _ => tab

/-- Elif-branch loop of _recollect_local_vars. -/
def recollectElifs (branches : List (Expr × List Stmt)) (tab : SymbolTable) :
    SymbolTable :=
  match branches with
  | [] => tab
  | (_, b) :: rest => recollectElifs rest (recollectLocalVars b tab)

end

mutual

/-- Expression traversal of UndefinedVariableChecker (ternary nodes go
through generic_visit, which visits condition, true and false values in
field order). -/
def checkExpr (e : Expr) (st : ChkState) : ChkState :=
  match e with
  | .identifier name l c =>
    match st.tab.lookupSym name with
    | some _ => st
    | none => st.addError (undefinedVarError name l c)
  | .binaryOp left _ right _ _ => checkExpr right (checkExpr left st)
  | .unaryOp _ operand _ _ => checkExpr operand st
  | .ternary cond tv fv _ _ => checkExpr fv (checkExpr tv (checkExpr cond st))
  | .call fn args _ _ =>
    let st1 :=
      match fn with
      | .identifier name l c =>
        match st.tab.lookupSym name with
        | some _ => st
        | none => st.addError (undefinedCallError name l c)
      | fn' => checkExpr fn' st
    checkExprList args st1
  | .memberAccess obj _ _ _ => checkExpr obj st
  | .indexAccess obj idx _ _ => checkExpr idx (checkExpr obj st)
  | .newExpr typeName args l c =>
    let st1 :=
      if typeName = "" then st
      else
        match st.tab.lookupSym typeName with
        | some _ => st
        | none => st.addError (unknownTypeError typeName l c)
    checkExprList args st1
  | .literal .. => st

/-- Argument-list traversal of the checker. -/
def checkExprList (es : List Expr) (st : ChkState) : ChkState :=
  match es with
  | [] => st
  | e :: rest => checkExprList rest (checkExpr e st)

/-- Statement traversal of UndefinedVariableChecker (raise statements
go through generic_visit, which visits the expression when present). -/
def checkStmt (s : Stmt) (st : ChkState) : ChkState :=
  match s with
  | .varDecl _ => st
  | .assignment target value _ _ =>
    let st1 := checkExpr value st
    match target with
    | .identifier name l c =>
      match st1.tab.lookupSym name with
      | some _ => st1
      | none =>
        st1.defineSym name ⟨name, "variable", l, c, st1.tab.currentScopeLevel, false⟩
    | target' => checkExpr target' st1
  | .ifStmt cond thenB elifs elseB _ _ =>
    let st1 := checkExpr cond st
    let st2 := checkStmts thenB st1
    let st3 := checkElifs elifs st2
    match elseB with
    | some b => checkStmts b st3
    | none => st3
  | .whileStmt cond body _ _ => checkStmts body (checkExpr cond st)
  | .forStmt _ startE endE body _ _ =>
    checkStmts body (checkExpr endE (checkExpr startE st))
  | .forEachStmt _ coll body _ _ => checkStmts body (checkExpr coll st)
  | .tryStmt tb eb _ _ => checkStmts eb (checkStmts tb st)
  | .returnStmt v _ _ =>
    match v with
    | some e => checkExpr e st
    | none => st
  | .breakStmt _ _ => st
  | .continueStmt _ _ => st
  | .raiseStmt v _ _ =>
    match v with
    | some e => checkExpr e st
    | none => st
  | .awaitStmt e _ _ => checkExpr e st
  | .exprStmt e _ _ => checkExpr e st

/-- Statement-list traversal of the checker. -/
def checkStmts (body : List Stmt) (st : ChkState) : ChkState :=
  match body with
  | [] => st
  | s :: rest => checkStmts rest (checkStmt s st)

/-- Elif-branch traversal of visit_IfNode. -/
def checkElifs (branches : List (Expr × List Stmt)) (st : ChkState) : ChkState :=
  match branches with
  | [] => st
  | (cond, b) :: rest => checkElifs rest (checkStmts b (checkExpr cond st))

end

/-- UndefinedVariableChecker.visit_FunctionNode /
visit_ProcedureNode scope setup: enter the scope, re-define parameters,
replay the local declarations. -/
def checkScopeSetup (params : List ParameterNode) (body : List Stmt)
    (st : ChkState) : ChkState :=
  let st1 := { st with tab := st.tab.enterScope }
  let st2 := params.foldl
    (fun s p => s.defineSym p.name ⟨p.name, "parameter", p.line, p.column, s.tab.currentScopeLevel, false⟩)
    st1
  { st2 with tab := recollectLocalVars body st2.tab }

/-- UndefinedVariableChecker.visit_FunctionNode. -/
def checkFunction (f : FunctionNode) (st : ChkState) : ChkState :=
  let st1 := checkScopeSetup f.parameters f.body st
  let st2 := checkStmts f.body st1
  { st2 with tab := st2.tab.exitScope }

/-- UndefinedVariableChecker.visit_ProcedureNode. -/
def checkProcedure (p : ProcedureNode) (st : ChkState) : ChkState :=
  let st1 := checkScopeSetup p.parameters p.body st
  let st2 := checkStmts p.body st1
  { st2 with tab := st2.tab.exitScope }

/-- UndefinedVariableChecker.visit_ModuleNode: visit all functions then
all procedures; module-level statements and variable declarations are
not visited. -/
def checkModule (m : ModuleNode) (st : ChkState) : ChkState :=
  let st1 := m.functions.foldl (fun s f => checkFunction f s) st
  m.procedures.foldl (fun s p => checkProcedure p s) st1

/-- Root node handed to SemanticAnalyzer.analyze: either a module or
some other AST node. -/
inductive ASTRoot where
  | module (m : ModuleNode)
  | statementRoot (s : Stmt)
  | expressionRoot (e : Expr)

/-- SemanticAnalyzer.analyze: a non-module root yields the single
invalid_ast diagnostic (the symbol table is left unset); otherwise the
collection pass builds the table and the checking pass accumulates
diagnostics, and the final table is available for introspection. -/
def analyze (ast : ASTRoot) (builtins : Option BuiltinRegistry) :
    List SemanticError × Option SymbolTable :=
  match ast with
  | .module m =>
    let tab := collectModule m builtins
    let st := checkModule m ⟨tab, []⟩
    (st.errors, some st.tab)
  | _ => ([invalidAstError], none)

/-- Shorthand for the diagnostic list of an analysis run. -/
def analyzeErrors (ast : ASTRoot) (builtins : Option BuiltinRegistry) :
    List SemanticError :=
  (analyze ast builtins).1

/-! Derived definitions used by the verification: concrete fixture
programs (written as the parser would produce them), scope-content
extractors, and the token-stream adapter from the lexer to the parser. -/

/-- Token stream handed to the parser (empty on lexical error; every
fixture below tokenizes successfully). -/
def tokensOf (s : String) : List Token :=
  match tokenize s with
  | .ok ts => ts
  | .error _ => []

/-- Fuel large enough for every concrete parse in this file. -/
def bigFuel : Nat := 64

/-- Function body of the program `Функция Тест() а = б + с + д; КонецФункции`:
a single assignment whose value is the left-associated sum б + с + д,
with no prior declaration of any of the four names. -/
def c1Function : FunctionNode :=
  { name := "Тест", line := 1, column := 1,
    body := [.assignment (.identifier "а" 2 1)
      (.binaryOp
        (.binaryOp (.identifier "б" 2 5) "+" (.identifier "с" 2 9) 2 7)
        "+" (.identifier "д" 2 13) 2 11)
      2 1] }

/-- The same module as c1Function. -/
def c1Module : ModuleNode := { functions := [c1Function] }

/-- The c1 program followed by `Возврат а;`: а was implicitly declared
by the assignment, so the later reference resolves. -/
def c1ReturnModule : ModuleNode :=
  { functions := [{ c1Function with
      body := c1Function.body ++ [.returnStmt (some (.identifier "а" 3 9)) 3 1] }] }

/-- Function whose body is the self-referential assignment `х = х + 1;`
with х previously undeclared: the right-hand side х is an undefined
reference even though the assignment then defines х. -/
def c1SelfFunction : FunctionNode :=
  { name := "Т", line := 1, column := 1,
    body := [.assignment (.identifier "х" 2 1)
      (.binaryOp (.identifier "х" 2 5) "+" (.literal (.pyInt 1) "number" 2 9) 2 7)
      2 1] }

/-- Module wrapping c1SelfFunction. -/
def c1SelfModule : ModuleNode := { functions := [c1SelfFunction] }

/-- Function with a declaration nested in an if body:
`Функция Ф() Если Истина Тогда Перем х; КонецЕсли; КонецФункции`. -/
def c3Function : FunctionNode :=
  { name := "Ф", line := 1, column := 1,
    body := [.ifStmt (.literal (.pyBool true) "boolean" 2 6)
      [.varDecl ⟨["х"], 3, 5⟩] [] none 2 1] }

/-- The c3 function followed by `Возврат х;`. -/
def c3ReturnModule : ModuleNode :=
  { functions := [{ c3Function with
      body := c3Function.body ++ [.returnStmt (some (.identifier "х" 5 13)) 5 1] }] }

/-- The (lowercased name, kind) entries Pass 1 defines into a
function's scope: the top scope of the collector's visit_FunctionNode
just before its exit_scope, starting from an empty module scope. -/
def collectorFuncScopeEntries (f : FunctionNode) : List (String × String) :=
  match (collectFunctionOpen f.parameters f.body (newSymbolTable none)).scopes with
  | top :: _ => top.map (fun p => (p.1, p.2.kind))
  | [] => []

/-- The (lowercased name, kind) entries Pass 2 re-defines into the
function scope: the top scope after the checker's scope setup
(parameters plus _recollect_local_vars), starting from an empty module
scope. -/
def checkerReplayScopeEntries (f : FunctionNode) : List (String × String) :=
  match (checkScopeSetup f.parameters f.body ⟨newSymbolTable none, []⟩).tab.scopes with
  | top :: _ => top.map (fun p => (p.1, p.2.kind))
  | [] => []

/-- Function containing `Для i = 1 По 5 Цикл КонецЦикла; Возврат i;`:
the loop variable is referenced after the loop body ends. -/
def c2ForFunction : FunctionNode :=
  { name := "Тест", line := 1, column := 1,
    body := [.forStmt "i" (.literal (.pyInt 1) "number" 2 9)
               (.literal (.pyInt 5) "number" 2 14) [] 2 1,
             .returnStmt (some (.identifier "i" 3 9)) 3 1] }

/-- Module wrapping c2ForFunction. -/
def c2ForModule : ModuleNode := { functions := [c2ForFunction] }

/-- Procedure whose body is the constructor expression
`Новый НеизвестныйТип();`. -/
def c8Procedure : ProcedureNode :=
  { name := "П", line := 1, column := 1,
    body := [.exprStmt (.newExpr "НеизвестныйТип" [] 2 1) 2 1] }

/-- Module wrapping c8Procedure. -/
def c8Module : ModuleNode := { procedures := [c8Procedure] }

/-- Builtin registry whose type table contains НеизвестныйТип under its
lowercased key, as the externally produced cache stores it. -/
def c8Registry : BuiltinRegistry :=
  { functions := [],
    types := [("неизвестныйтип", ⟨"НеизвестныйТип", "UnknownType", "General"⟩)] }

/-- Procedure whose body is `Новый Массив(неизв);`: the constructor
argument is an undefined reference even when the type is known. -/
def c8ArgsProcedure : ProcedureNode :=
  { name := "П", line := 1, column := 1,
    body := [.exprStmt (.newExpr "Массив" [.identifier "неизв" 2 14] 2 1) 2 1] }

/-- Module wrapping c8ArgsProcedure. -/
def c8ArgsModule : ModuleNode := { procedures := [c8ArgsProcedure] }

/-- Registry knowing the Массив type. -/
def c8ArrayRegistry : BuiltinRegistry :=
  { functions := [], types := [("массив", ⟨"Массив", "Array", "Collections"⟩)] }

/-- Module with no functions or procedures but with module-level
statements referencing undefined names. -/
def c10Module : ModuleNode :=
  { varDeclarations := [⟨["г"], 1, 1⟩],
    statements := [.exprStmt (.identifier "неизвестное" 2 1) 2 1,
                   .assignment (.identifier "х" 3 1) (.identifier "у" 3 5) 3 1] }

/-- Empty module fixture. -/
def emptyModule : ModuleNode := {}

/-- Token streams free of newline and comment tokens (the shape
produced by tokenize_without_whitespace). -/
def noNlComment (ts : List Token) : Prop :=
  ∀ t ∈ ts, t.type ≠ .NEWLINE ∧ t.type ≠ .COMMENT


mutual

/-- The lowercased names _recollect_local_vars defines for one
statement: variable declarations and numeric-for / for-each loop
variables, recursively through if / while / try / for / for-each
bodies. -/
def declNamesStmt : Stmt → List String
  | .varDecl d => d.names.map pyLowerStr
  | .forStmt v _ _ body _ _ => pyLowerStr v :: declNamesBody body
  | .forEachStmt v _ body _ _ => pyLowerStr v :: declNamesBody body
  | .ifStmt _ thenB elifs elseB _ _ =>
    declNamesBody thenB ++ declNamesElifs elifs ++
      (match elseB with
       | some b => declNamesBody b
       | none => [])
  | .whileStmt _ body _ _ => declNamesBody body
  | .tryStmt tb eb _ _ => declNamesBody tb ++ declNamesBody eb
  | _ => []

/-- declNamesStmt over a statement list. -/
def declNamesBody : List Stmt → List String
  | [] => []
  | s :: rest => declNamesStmt s ++ declNamesBody rest

/-- declNamesStmt over elif branches. -/
def declNamesElifs : List (Expr × List Stmt) → List String
  | [] => []
  | (_, b) :: rest => declNamesBody b ++ declNamesElifs rest

end

/-- An undefined_variable diagnostic whose reported spelling lowers to
the given key (plain reference or call reference). -/
def keyErr (key : String) (err : SemanticError) : Prop :=
  ∃ nm l c, pyLowerStr nm = key ∧
    (err = undefinedVarError nm l c ∨ err = undefinedCallError nm l c)

/-- The key resolves somewhere in the scope stack. -/
def foundKey (key : String) (tab : SymbolTable) : Prop :=
  (scopesFind tab.scopes key).isSome = true

/-! Theorems settling the claims. -/

/-- Claim C1: the reference checker visits an assignment's value
expression before deciding anything about the target, so for
`а = б + с + д;` inside a function with no prior declarations analysis
yields exactly the three undefined_variable diagnostics for б, с and д
(in that order) and no diagnostic mentioning а; the bare-identifier
target is implicitly defined (a later `Возврат а;` resolves, and in the
self-referential `х = х + 1;` the right-hand side х is still reported). -/
theorem c1_assignment_value_before_target :
    analyzeErrors (.module c1Module) none =
      [undefinedVarError "б" 2 5, undefinedVarError "с" 2 9, undefinedVarError "д" 2 13] ∧
    (∀ e ∈ analyzeErrors (.module c1Module) none, ('а' : Char) ∉ e.message.data) ∧
    analyzeErrors (.module c1ReturnModule) none =
      [undefinedVarError "б" 2 5, undefinedVarError "с" 2 9, undefinedVarError "д" 2 13] ∧
    analyzeErrors (.module c1SelfModule) none = [undefinedVarError "х" 2 5] := by
  exact ⟨by decide, by decide, by decide, by decide⟩

/-- Claim C3 (code bug): Pass 1 is meant to gather declarations nested
inside if bodies into the function scope, but hasattr(stmt, 'body') is
false for if and try nodes, so the collector never reaches the
corresponding branches of _collect_vars_from_body; for a function whose
body declares х inside an if, the collector's function scope is empty
while the checker's replay defines х, so the two define sets differ.
The analysis outcome is still clean because only the replayed scope is
consulted while checking. -/
theorem c3_collector_misses_if_nested_declarations :
    collectorFuncScopeEntries c3Function = [] ∧
    checkerReplayScopeEntries c3Function = [("х", "variable")] ∧
    collectorFuncScopeEntries c3Function ≠ checkerReplayScopeEntries c3Function ∧
    analyzeErrors (.module c3ReturnModule) none = [] := by
  exact ⟨by decide, by decide, by decide, by decide⟩

/-- Claim C5: binary parsing respects the documented precedence order
with left associativity: `a + b * c` yields a plus node whose right
child is the times node, `(a + b) * c` yields the mirror shape,
`a - b + c` associates to the left, and the PRECEDENCE table orders
logical-or, logical-and, logical-not, comparison, additive and
multiplicative operators as documented. -/
theorem c5_precedence_and_associativity :
    parseExpression bigFuel (tokensOf "a + b * c") 0 =
      .ok (.binaryOp (.identifier "a" 1 1) "+"
        (.binaryOp (.identifier "b" 1 5) "*" (.identifier "c" 1 9) 1 7) 1 3, 5) ∧
    parseExpression bigFuel (tokensOf "(a + b) * c") 0 =
      .ok (.binaryOp
        (.binaryOp (.identifier "a" 1 2) "+" (.identifier "b" 1 6) 1 4) "*"
        (.identifier "c" 1 11) 1 9, 7) ∧
    parseExpression bigFuel (tokensOf "a - b + c") 0 =
      .ok (.binaryOp
        (.binaryOp (.identifier "a" 1 1) "-" (.identifier "b" 1 5) 1 3) "+"
        (.identifier "c" 1 9) 1 7, 5) ∧
    precOf "ИЛИ" = some 1 ∧ precOf "И" = some 2 ∧ precOf "НЕ" = some 3 ∧
    precOf "=" = some 4 ∧ precOf "+" = some 5 ∧ precOf "*" = some 6 := by
  exact ⟨rfl, rfl, rfl, rfl, rfl, rfl, rfl, rfl, rfl⟩

/-- Claim C8: `Новый НеизвестныйТип()` inside a checked procedure with
no builtin registry yields exactly one undefined_type diagnostic;
supplying a registry containing the (lowercased) type name yields no
diagnostics, the lookup being case-insensitive; constructor arguments
are visited regardless. -/
theorem c8_new_type_lookup :
    analyzeErrors (.module c8Module) none = [unknownTypeError "НеизвестныйТип" 2 1] ∧
    analyzeErrors (.module c8Module) (some c8Registry) = [] ∧
    analyzeErrors (.module c8ArgsModule) (some c8ArrayRegistry) =
      [undefinedVarError "неизв" 2 14] := by
  exact ⟨by decide, by decide, by decide⟩

/-- Claim C10: neither analysis pass visits the module's top-level
statement list, so a module without functions and procedures yields no
diagnostics regardless of its statements. -/
theorem c10_module_level_statements_unchecked (m : ModuleNode)
    (b : Option BuiltinRegistry) (hf : m.functions = []) (hp : m.procedures = []) :
    analyzeErrors (.module m) b = [] := by
  simp [analyzeErrors, analyze, checkModule, hf, hp]

/-- Witness for C10: a module whose statements reference undefined
names still analyzes cleanly. -/
theorem c10_witness :
    c10Module.functions = [] ∧ c10Module.procedures = [] ∧
    analyzeErrors (.module c10Module) none = [] :=
  ⟨rfl, rfl, c10_module_level_statements_unchecked c10Module none rfl rfl⟩

/-- Claim C9: analyze on a non-module root returns exactly the single
invalid_ast diagnostic and no symbol table; on any module root it
returns a diagnostic list together with a symbol table for
introspection. -/
theorem c9_invalid_root_single_diagnostic :
    (∀ (r : ASTRoot) (b : Option BuiltinRegistry), (∀ m, r ≠ .module m) →
       analyze r b = ([invalidAstError], none)) ∧
    (∀ (m : ModuleNode) (b : Option BuiltinRegistry),
       (analyze (.module m) b).2.isSome = true) := by
  constructor
  · intro r b h
    cases r with
    | module m => exact absurd rfl (h m)
    | statementRoot s => rfl
    | expressionRoot e => rfl
  · intro m b
    rfl

/-- Witness for C9 at a statement root and at the empty module. -/
theorem c9_witness :
    analyze (.statementRoot (.breakStmt 1 1)) none = ([invalidAstError], none) ∧
    (analyze (.module emptyModule) none).2.isSome = true :=
  ⟨c9_invalid_root_single_diagnostic.1 _ none (fun _ h => ASTRoot.noConfusion h),
   c9_invalid_root_single_diagnostic.2 emptyModule none⟩

/-- Inversion of Except.map against a successful result. -/
theorem except_map_ok {ε α β : Type} (f : α → β) (x : Except ε α) (b : β) :
    x.map f = .ok b ↔ ∃ a, x = .ok a ∧ f a = b := by
  cases x <;> simp [Except.map]

/-- The preprocessor classifier never yields the end-of-input kind. -/
theorem classifyPreproc_ne_eof (v : String) : classifyPreproc v ≠ .EOF := by
  unfold classifyPreproc
  dsimp only
  repeat' split
  all_goals decide

/-- Keyword lookup never yields the end-of-input kind. -/
theorem kwLookup_ne_eof (s : String) (k : TokenType) (h : kwLookup s = some k) :
    k ≠ .EOF := by
  unfold kwLookup at h
  cases hf : KEYWORDS_LOWER.find? (fun p => p.1 = s) with
  | none => rw [hf] at h; cases h
  | some p =>
    rw [hf] at h
    have hk : p.2 = k := by
      simpa using h
    have hm := List.mem_of_find?_eq_some hf
    have hall : ∀ q ∈ KEYWORDS_LOWER, q.2 ≠ TokenType.EOF := by decide
    exact hk ▸ hall p hm

/-- Delimiter lookup never yields the end-of-input kind. -/
theorem delimiters_ne_eof (p : String × TokenType)
    (h : p ∈ DELIMITERS) : p.2 ≠ .EOF := by
  have hall : ∀ q ∈ DELIMITERS, q.2 ≠ TokenType.EOF := by decide
  exact hall p h

/-- Operator reading never yields the end-of-input kind. -/
theorem readOperator_ne_eof (cs : List Char) (tt : TokenType) (v : String) (n : Nat)
    (h : readOperator cs = some (tt, v, n)) : tt ≠ .EOF := by
  have hall : ∀ q ∈ OPERATORS, q.2 ≠ TokenType.EOF := by decide
  unfold readOperator at h
  cases cs with
  | nil => cases h
  | cons c1 rest =>
    dsimp only at h
    split at h
    · rename_i p heq hlen
      injection h with h'
      injection h' with ha hb
      exact ha ▸ hall p (List.mem_of_find?_eq_some heq)
    · split at h
      · rename_i p heq
        injection h with h'
        injection h' with ha hb
        exact ha ▸ hall p (List.mem_of_find?_eq_some heq)
      · cases h

/-- Tokenizing an exhausted input appends only the end-of-input token. -/
theorem tokenizeAux_nil (fuel line col : Nat) :
    tokenizeAux fuel [] line col = .ok [⟨.EOF, "", line, col⟩] := by
  cases fuel <;> rfl

/-- Every token produced by a loop iteration has a kind other than
end-of-input. -/
theorem scanToken_inr_ne_eof (cs : List Char) (line col : Nat)
    (tok : Token) (rest : List Char) (l2 c2 : Nat)
    (h : scanToken cs line col = .ok (.inr (tok, rest, l2, c2))) :
    tok.type ≠ .EOF := by
  have base : ∀ (tt : TokenType) (v : String) (la ca : Nat) (r : List Char) (lb cb : Nat),
      Except.ok (ε := LexError)
          (Sum.inr (α := Nat × Nat) ((⟨tt, v, la, ca⟩ : Token), r, lb, cb)) =
        .ok (.inr (tok, rest, l2, c2)) → tok.type = tt := by
    intro tt v la ca r lb cb he
    simp only [Except.ok.injEq, Sum.inr.injEq, Prod.mk.injEq] at he
    rw [← he.1]
  unfold scanToken at h
  dsimp only at h
  split at h
  · exact absurd h (by simp)
  · split at h
    · rw [base _ _ _ _ _ _ _ h]; decide
    · split at h
      · rw [base _ _ _ _ _ _ _ h]; decide
      · split at h
        · split at h
          · cases h
          · rw [base _ _ _ _ _ _ _ h]; decide
        · split at h
          · split at h
            · cases h
            · rw [base _ _ _ _ _ _ _ h]; decide
          · split at h
            · rw [base _ _ _ _ _ _ _ h]; decide
            · split at h
              · rw [base _ _ _ _ _ _ _ h]
                exact classifyPreproc_ne_eof _
              · split at h
                · rw [base _ _ _ _ _ _ _ h]; decide
                · split at h
                  · rw [base _ _ _ _ _ _ _ h]
                    split
                    · rename_i k hk
                      exact kwLookup_ne_eof _ _ hk
                    · decide
                  · split at h
                    · rename_i p heq
                      rw [base _ _ _ _ _ _ _ h]
                      exact delimiters_ne_eof p (List.mem_of_find?_eq_some heq)
                    · split at h
                      · rename_i tt v n hop
                        rw [base _ _ _ _ _ _ _ h]
                        exact readOperator_ne_eof _ _ _ _ hop
                      · cases h

/-- Shape of every successful tokenization: a body of non-EOF tokens
followed by exactly one end-of-input token. -/
theorem tokenizeAux_shape (fuel : Nat) :
    ∀ (cs : List Char) (line col : Nat) (ts : List Token),
      tokenizeAux fuel cs line col = .ok ts →
      ∃ body lastTok, ts = body ++ [lastTok] ∧ lastTok.type = .EOF ∧
        ∀ t ∈ body, t.type ≠ .EOF := by
  induction fuel with
  | zero =>
    intro cs l c ts h
    cases cs with
    | nil =>
      rw [tokenizeAux_nil] at h
      injection h with h2
      exact ⟨[], _, h2.symm, rfl, by simp⟩
    | cons c0 rest =>
      rw [show tokenizeAux 0 (c0 :: rest) l c =
        Except.error ⟨"fuel exhausted", l, c⟩ from rfl] at h
      cases h
  | succ f ih =>
    intro cs l c ts h
    cases cs with
    | nil =>
      rw [tokenizeAux_nil] at h
      injection h with h2
      exact ⟨[], _, h2.symm, rfl, by simp⟩
    | cons c0 rest =>
      rw [show tokenizeAux (f + 1) (c0 :: rest) l c =
          (match scanToken (c0 :: rest) l c with
           | .error e => .error e
           | .ok (.inl (line1, col1)) => .ok [⟨.EOF, "", line1, col1⟩]
           | .ok (.inr (tok, rest2, line2, col2)) =>
             (tokenizeAux f rest2 line2 col2).map (fun ts => tok :: ts)) from rfl] at h
      cases hscan : scanToken (c0 :: rest) l c with
      | error e => rw [hscan] at h; cases h
      | ok v =>
        rw [hscan] at h
        cases v with
        | inl p =>
          obtain ⟨l1, c1⟩ := p
          dsimp only at h
          injection h with h2
          exact ⟨[], _, h2.symm, rfl, by simp⟩
        | inr q =>
          obtain ⟨tok, rest2, l2', c2'⟩ := q
          dsimp only at h
          obtain ⟨ts', h1, h2⟩ := (except_map_ok _ _ _).mp h
          obtain ⟨body, lastT, hb, hl, hn⟩ := ih _ _ _ _ h1
          subst h2 hb
          refine ⟨tok :: body, lastT, rfl, hl, ?_⟩
          intro t ht
          rcases List.mem_cons.mp ht with h' | h'
          · subst h'
            exact scanToken_inr_ne_eof _ _ _ _ _ _ _ hscan
          · exact hn t h'

/-- Claim C7 (amended): filtering only newline and comment tokens from
tokenize() gives exactly tokenize_without_whitespace(); additionally
filtering the end-of-input token (as the claim states) gives the
whitespace-stripped stream with its final token removed, because
tokenize_without_whitespace retains the trailing EOF token. -/
theorem c7_filter_equivalence (s : String) (ts ws : List Token)
    (hts : tokenize s = .ok ts) (hws : tokenizeWithoutWhitespace s = .ok ws) :
    ts.filter (fun t => !(t.type = .NEWLINE || t.type = .COMMENT)) = ws ∧
    ts.filter (fun t => !(t.type = .NEWLINE || t.type = .COMMENT || t.type = .EOF)) =
      ws.dropLast ∧
    (∃ e, ws.getLast? = some e ∧ e.type = .EOF) := by
  obtain ⟨body, lastT, hb, hl, hn⟩ := tokenizeAux_shape _ _ _ _ _ hts
  subst hb
  have hws' : ws = (body ++ [lastT]).filter
      (fun t => !(t.type = .NEWLINE || t.type = .COMMENT)) := by
    have heq : tokenizeWithoutWhitespace s = (tokenize s).map
        (fun l => l.filter (fun t => !(t.type = .NEWLINE || t.type = .COMMENT))) := rfl
    rw [heq, hts] at hws
    have hws2 : Except.ok (ε := LexError) ((body ++ [lastT]).filter
        (fun t => !(t.type = .NEWLINE || t.type = .COMMENT))) = .ok ws := hws
    injection hws2 with hws3
    exact hws3.symm
  have hlast : lastT.type ≠ .NEWLINE ∧ lastT.type ≠ .COMMENT := by
    constructor <;> (rw [hl]; decide)
  constructor
  · exact hws'.symm
  have hfe : (body ++ [lastT]).filter
      (fun t => !(t.type = .NEWLINE || t.type = .COMMENT)) =
      body.filter (fun t => !(t.type = .NEWLINE || t.type = .COMMENT)) ++ [lastT] := by
    rw [List.filter_append]
    simp [hlast.1, hlast.2]
  constructor
  · rw [hws', hfe, List.dropLast_concat, List.filter_append]
    have h1 : [lastT].filter
        (fun t => !(t.type = .NEWLINE || t.type = .COMMENT || t.type = .EOF)) = [] := by
      simp [hl]
    rw [h1, List.append_nil]
    apply List.filter_congr
    intro t ht
    simp [hn t ht]
  · refine ⟨lastT, ?_, hl⟩
    rw [hws', hfe]
    simp

/-- Counterexample for C7 as stated: on the empty input, filtering
comment, newline and end-of-input tokens from tokenize() yields the
empty sequence, while tokenize_without_whitespace() keeps the
end-of-input token. -/
theorem c7_counterexample :
    (tokenize "").map
      (fun ts => ts.filter
        (fun t => !(t.type = .NEWLINE || t.type = .COMMENT || t.type = .EOF))) =
      .ok [] ∧
    tokenizeWithoutWhitespace "" = .ok [⟨.EOF, "", 1, 1⟩] ∧
    ([] : List Token) ≠ [⟨.EOF, "", 1, 1⟩] := by
  exact ⟨rfl, rfl, by decide⟩

/-- Witness for C7 on a program with a comment, a newline and tokens. -/
theorem c7_witness :
    tokenize "а; // к\n" =
      .ok [⟨.IDENTIFIER, "а", 1, 1⟩, ⟨.DELIMITER_SEMICOLON, ";", 1, 2⟩,
           ⟨.COMMENT, "к", 1, 4⟩, ⟨.NEWLINE, "\\n", 1, 8⟩, ⟨.EOF, "", 2, 1⟩] ∧
    tokenizeWithoutWhitespace "а; // к\n" =
      .ok [⟨.IDENTIFIER, "а", 1, 1⟩, ⟨.DELIMITER_SEMICOLON, ";", 1, 2⟩,
           ⟨.EOF, "", 2, 1⟩] ∧
    ([⟨.IDENTIFIER, "а", 1, 1⟩, ⟨.DELIMITER_SEMICOLON, ";", 1, 2⟩,
      ⟨.COMMENT, "к", 1, 4⟩, ⟨.NEWLINE, "\\n", 1, 8⟩,
      (⟨.EOF, "", 2, 1⟩ : Token)].filter
        (fun t => !(t.type = .NEWLINE || t.type = .COMMENT)) =
      [⟨.IDENTIFIER, "а", 1, 1⟩, ⟨.DELIMITER_SEMICOLON, ";", 1, 2⟩,
       ⟨.EOF, "", 2, 1⟩] ∧
     [⟨.IDENTIFIER, "а", 1, 1⟩, ⟨.DELIMITER_SEMICOLON, ";", 1, 2⟩,
      ⟨.COMMENT, "к", 1, 4⟩, ⟨.NEWLINE, "\\n", 1, 8⟩,
      (⟨.EOF, "", 2, 1⟩ : Token)].filter
        (fun t => !(t.type = .NEWLINE || t.type = .COMMENT || t.type = .EOF)) =
      [⟨.IDENTIFIER, "а", 1, 1⟩, ⟨.DELIMITER_SEMICOLON, ";", 1, 2⟩,
       (⟨.EOF, "", 2, 1⟩ : Token)].dropLast ∧
     (∃ e, ([⟨.IDENTIFIER, "а", 1, 1⟩, ⟨.DELIMITER_SEMICOLON, ";", 1, 2⟩,
             (⟨.EOF, "", 2, 1⟩ : Token)] : List Token).getLast? = some e ∧
        e.type = .EOF)) :=
  ⟨rfl, rfl, c7_filter_equivalence "а; // к\n" _ _ rfl rfl⟩

/-- Letter characters (ASCII or Cyrillic) are none of the characters
the tokenizer dispatches on before the identifier branch, are not
whitespace, digits or a byte-order mark. -/
theorem alphaHeadFacts (c : Char) (h : pyIsAlpha c = true) :
    isLexWs c = false ∧ ¬(c = '\n') ∧ ¬(c = '/') ∧ ¬(c = '"') ∧ ¬(c = quoteChar) ∧
    ¬(c = '&') ∧ ¬(c = '#') ∧ pyIsDigit c = false ∧ c.toNat ≠ 0xFEFF := by
  have hr : (65 ≤ c.toNat ∧ c.toNat ≤ 90 ∨ 97 ≤ c.toNat ∧ c.toNat ≤ 122) ∨
      1024 ≤ c.toNat ∧ c.toNat ≤ 1279 ∨ 1280 ≤ c.toNat ∧ c.toNat ≤ 1327 := by
    simpa [pyIsAlpha, isCyrillic, Bool.or_eq_true, decide_eq_true_eq] using h
  have hsp : ¬(c = ' ') := fun heq => by
    have hc : c.toNat = 32 := by rw [heq]; rfl
    omega
  have htab : ¬(c = '\t') := fun heq => by
    have hc : c.toNat = 9 := by rw [heq]; rfl
    omega
  have hcr : ¬(c = '\r') := fun heq => by
    have hc : c.toNat = 13 := by rw [heq]; rfl
    omega
  have hnl : ¬(c = '\n') := fun heq => by
    have hc : c.toNat = 10 := by rw [heq]; rfl
    omega
  have hsl : ¬(c = '/') := fun heq => by
    have hc : c.toNat = 47 := by rw [heq]; rfl
    omega
  have hq : ¬(c = '"') := fun heq => by
    have hc : c.toNat = 34 := by rw [heq]; rfl
    omega
  have hqc : ¬(c = quoteChar) := fun heq => by
    have hc : c.toNat = 39 := by rw [heq]; rfl
    omega
  have hamp : ¬(c = '&') := fun heq => by
    have hc : c.toNat = 38 := by rw [heq]; rfl
    omega
  have hhash : ¬(c = '#') := fun heq => by
    have hc : c.toNat = 35 := by rw [heq]; rfl
    omega
  refine ⟨by simp [isLexWs, hsp, htab, hcr], hnl, hsl, hq, hqc, hamp, hhash, ?_, ?_⟩
  · simp only [pyIsDigit, Bool.and_eq_false_iff, decide_eq_false_iff_not]
    omega
  · omega

/-- Letter characters are identifier characters. -/
theorem alpha_identChar (c : Char) (h : pyIsAlpha c = true) : identChar c = true := by
  simp [identChar, pyIsAlnum, h]

/-- read_identifier_or_keyword consumes an input made entirely of
identifier characters, appending it to the accumulator and advancing
the column by its length. -/
theorem readIdentAux_all (cs : List Char) (hca : ∀ ch ∈ cs, identChar ch = true) :
    ∀ (col : Nat) (acc : List Char),
      readIdentAux cs col acc = (⟨acc ++ cs⟩, [], col + cs.length) := by
  induction cs with
  | nil => intro col acc; simp [readIdentAux]
  | cons c0 rest ih =>
    intro col acc
    rw [readIdentAux]
    rw [if_pos (hca c0 (List.mem_cons_self c0 rest))]
    rw [ih (fun ch hch => hca ch (List.mem_cons_of_mem c0 hch))]
    simp
    omega

/-- A loop iteration on a nonempty all-letter input produces a single
identifier-or-keyword token carrying the original spelling and consumes
the whole input. -/
theorem scanToken_word (c0 : Char) (rest : List Char)
    (ha : ∀ c ∈ c0 :: rest, pyIsAlpha c = true) (l col : Nat) :
    scanToken (c0 :: rest) l col =
      .ok (.inr (⟨(match kwLookup (pyLowerStr ⟨c0 :: rest⟩) with
                   | some k => k
                   | none => .IDENTIFIER),
                  ⟨c0 :: rest⟩, l, col⟩,
                 [], l, col + (c0 :: rest).length)) := by
  obtain ⟨hws, hnl, hsl, hq, hqc, hamp, hhash, hdig, hbom⟩ :=
    alphaHeadFacts c0 (ha c0 (List.mem_cons_self c0 rest))
  have hsw : skipWs (c0 :: rest) l col = (c0 :: rest, l, col) := by
    rw [skipWs, if_neg (by simp [hws])]
  have hread : readIdentAux (c0 :: rest) col [] =
      (⟨c0 :: rest⟩, [], col + (c0 :: rest).length) := by
    have := readIdentAux_all (c0 :: rest)
      (fun ch hch => alpha_identChar ch (ha ch hch)) col []
    simpa using this
  unfold scanToken
  rw [hsw]
  dsimp only
  rw [if_neg hnl]
  rw [show (decide (c0 = '/') && decide (rest.head? = some '/')) = false by
    simp [hsl]]
  simp only [Bool.false_eq_true, if_false]
  rw [if_neg hq, if_neg hqc, if_neg hamp, if_neg hhash]
  rw [show pyIsDigit c0 = false from hdig]
  simp only [Bool.false_eq_true, if_false]
  rw [show (pyIsAlpha c0 || decide (c0 = '_') || isCyrillic c0) = true by
    simp [ha c0 (List.mem_cons_self c0 rest)]]
  simp only [if_true]
  rw [hread]

/-- Tokenizing a nonempty all-letter word yields the keyword-or-identifier
token (with the original spelling as its text) followed by end-of-input. -/
theorem tokenize_word (w : List Char) (hw : w ≠ [])
    (ha : ∀ c ∈ w, pyIsAlpha c = true) :
    tokenize ⟨w⟩ =
      .ok [⟨(match kwLookup (pyLowerStr ⟨w⟩) with
             | some k => k
             | none => .IDENTIFIER), ⟨w⟩, 1, 1⟩,
           ⟨.EOF, "", 1, w.length + 1⟩] := by
  cases w with
  | nil => exact absurd rfl hw
  | cons c0 rest =>
    obtain ⟨hws, hnl, hsl, hq, hqc, hamp, hhash, hdig, hbom⟩ :=
      alphaHeadFacts c0 (ha c0 (List.mem_cons_self c0 rest))
    have hstrip : stripBom (c0 :: rest) = c0 :: rest := by
      rw [stripBom, if_neg hbom]
    have hstr : (⟨c0 :: rest⟩ : String).data = c0 :: rest := rfl
    rw [show tokenize ⟨c0 :: rest⟩ =
      tokenizeAux ((stripBom (c0 :: rest)).length + 1) (stripBom (c0 :: rest)) 1 1
      from rfl]
    rw [hstrip]
    rw [show tokenizeAux ((c0 :: rest).length + 1) (c0 :: rest) 1 1 =
        (match scanToken (c0 :: rest) 1 1 with
         | .error e => .error e
         | .ok (.inl (l1, c1)) => .ok [⟨.EOF, "", l1, c1⟩]
         | .ok (.inr (tok, rest2, l2, c2)) =>
           (tokenizeAux (c0 :: rest).length rest2 l2 c2).map (fun ts => tok :: ts))
      from rfl]
    rw [scanToken_word c0 rest ha 1 1]
    dsimp only
    rw [tokenizeAux_nil]
    rw [show (1 : Nat) + (c0 :: rest).length = (c0 :: rest).length + 1 from
      Nat.add_comm 1 _]
    rfl

/-- Claim C6: keyword recognition is case-insensitive and preserves the
original spelling: for any two nonempty all-letter spellings that agree
after lowercasing and whose lowercasing is in the keyword table,
tokenize yields a single keyword token of the same kind for both, each
carrying its own original-case text, followed by end-of-input. -/
theorem c6_keyword_case_insensitive (w1 w2 : String) (k : TokenType)
    (h1 : w1.data ≠ []) (h2 : w2.data ≠ [])
    (ha1 : ∀ c ∈ w1.data, pyIsAlpha c = true)
    (ha2 : ∀ c ∈ w2.data, pyIsAlpha c = true)
    (hlow : pyLowerStr w1 = pyLowerStr w2)
    (hkw : kwLookup (pyLowerStr w1) = some k) :
    tokenize w1 = .ok [⟨k, w1, 1, 1⟩, ⟨.EOF, "", 1, w1.data.length + 1⟩] ∧
    tokenize w2 = .ok [⟨k, w2, 1, 1⟩, ⟨.EOF, "", 1, w2.data.length + 1⟩] := by
  have e1 := tokenize_word w1.data h1 ha1
  have e2 := tokenize_word w2.data h2 ha2
  have hs1 : (⟨w1.data⟩ : String) = w1 := rfl
  have hs2 : (⟨w2.data⟩ : String) = w2 := rfl
  rw [hs1] at e1
  rw [hs2] at e2
  rw [hkw] at e1
  rw [← hlow, hkw] at e2
  exact ⟨e1, e2⟩

/-- Witness for C6 on two spellings of the Перем keyword. -/
theorem c6_witness :
    tokenize "Перем" =
      .ok [⟨.KEYWORD_VAR, "Перем", 1, 1⟩, ⟨.EOF, "", 1, 6⟩] ∧
    tokenize "пЕрЕм" =
      .ok [⟨.KEYWORD_VAR, "пЕрЕм", 1, 1⟩, ⟨.EOF, "", 1, 6⟩] :=
  c6_keyword_case_insensitive "Перем" "пЕрЕм" .KEYWORD_VAR
    (by decide) (by decide) (by decide) (by decide) (by decide) (by decide)

/-- One-step fuel monotonicity for the whole expression-parser family:
a successful parse at some fuel is reproduced verbatim at larger fuel,
so fuel is an artifact of the embedding and the produced trees are
fuel-independent. -/
theorem parserMono : ∀ f : Nat,
    (∀ ts pos r, parsePrimary f ts pos = .ok r → parsePrimary (f + 1) ts pos = .ok r) ∧
    (∀ ts pos r, parseTernaryExpr f ts pos = .ok r → parseTernaryExpr (f + 1) ts pos = .ok r) ∧
    (∀ ts pos r, parseNewExpr f ts pos = .ok r → parseNewExpr (f + 1) ts pos = .ok r) ∧
    (∀ ts pos r, parseArguments f ts pos = .ok r → parseArguments (f + 1) ts pos = .ok r) ∧
    (∀ ts args pos r, argsLoop f ts args pos = .ok r → argsLoop (f + 1) ts args pos = .ok r) ∧
    (∀ ts e pos r, postfixLoop f ts e pos = .ok r → postfixLoop (f + 1) ts e pos = .ok r) ∧
    (∀ ts pos r, parsePostfixExpr f ts pos = .ok r → parsePostfixExpr (f + 1) ts pos = .ok r) ∧
    (∀ ts pos r, parseUnary f ts pos = .ok r → parseUnary (f + 1) ts pos = .ok r) ∧
    (∀ ts left pos mp r, binLoop f ts left pos mp = .ok r → binLoop (f + 1) ts left pos mp = .ok r) ∧
    (∀ ts pos mp r, parseBinaryExpr f ts pos mp = .ok r → parseBinaryExpr (f + 1) ts pos mp = .ok r) ∧
    (∀ ts left pos r, stmtClimb f ts left pos = .ok r → stmtClimb (f + 1) ts left pos = .ok r) := by
  intro f
  induction f with
  | zero =>
    refine ⟨?_, ?_, ?_, ?_, ?_, ?_, ?_, ?_, ?_, ?_, ?_⟩
    · intro ts pos r h
      unfold parsePrimary at h
      exact Except.noConfusion h
    · intro ts pos r h
      unfold parseTernaryExpr at h
      exact Except.noConfusion h
    · intro ts pos r h
      unfold parseNewExpr at h
      exact Except.noConfusion h
    · intro ts pos r h
      unfold parseArguments at h
      exact Except.noConfusion h
    · intro ts args pos r h
      unfold argsLoop at h
      exact Except.noConfusion h
    · intro ts e pos r h
      unfold postfixLoop at h
      exact Except.noConfusion h
    · intro ts pos r h
      unfold parsePostfixExpr at h
      exact Except.noConfusion h
    · intro ts pos r h
      unfold parseUnary at h
      exact Except.noConfusion h
    · intro ts left pos mp r h
      unfold binLoop at h
      exact Except.noConfusion h
    · intro ts pos mp r h
      unfold parseBinaryExpr at h
      exact Except.noConfusion h
    · intro ts left pos r h
      unfold stmtClimb at h
      exact Except.noConfusion h
  | succ f ih =>
    obtain ⟨ihP, ihT, ihN, ihA, ihAL, ihPL, ihPE, ihU, ihB, ihBE, ihS⟩ := ih
    refine ⟨?_, ?_, ?_, ?_, ?_, ?_, ?_, ?_, ?_, ?_, ?_⟩
    · -- parsePrimary
      intro ts pos r h
      unfold parsePrimary at h ⊢
      dsimp only at h ⊢
      by_cases h1 : (peekTok ts pos).type = .OP_TERNARY
      · rw [if_pos h1] at h ⊢
        exact ihT _ _ _ h
      rw [if_neg h1] at h ⊢
      by_cases h2 : (peekTok ts pos).type = .DELIMITER_LPAREN
      · rw [if_pos h2] at h ⊢
        cases hb : parseBinaryExpr f ts (advanceP ts pos) 0 with
        | error e => rw [hb] at h; dsimp only at h; exact Except.noConfusion h
        | ok v =>
          obtain ⟨e, p2⟩ := v
          rw [hb] at h
          rw [ihBE _ _ _ _ hb]
          dsimp only at h ⊢
          exact h
      rw [if_neg h2] at h ⊢
      by_cases h3 : (peekTok ts pos).type = .LITERAL_STRING
      · rw [if_pos h3] at h ⊢; exact h
      rw [if_neg h3] at h ⊢
      by_cases h4 : (peekTok ts pos).type = .LITERAL_NUMBER
      · rw [if_pos h4] at h ⊢; exact h
      rw [if_neg h4] at h ⊢
      by_cases h5 : (peekTok ts pos).type = .LITERAL_DATE
      · rw [if_pos h5] at h ⊢; exact h
      rw [if_neg h5] at h ⊢
      by_cases h6 : (peekTok ts pos).type = .KEYWORD_TRUE
      · rw [if_pos h6] at h ⊢; exact h
      rw [if_neg h6] at h ⊢
      by_cases h7 : (peekTok ts pos).type = .KEYWORD_FALSE
      · rw [if_pos h7] at h ⊢; exact h
      rw [if_neg h7] at h ⊢
      by_cases h8 : (peekTok ts pos).type = .KEYWORD_UNDEFINED
      · rw [if_pos h8] at h ⊢; exact h
      rw [if_neg h8] at h ⊢
      by_cases h9 : (peekTok ts pos).type = .KEYWORD_NEW
      · rw [if_pos h9] at h ⊢
        exact ihN _ _ _ h
      rw [if_neg h9] at h ⊢
      by_cases h10 : (peekTok ts pos).type = .IDENTIFIER
      · rw [if_pos h10] at h ⊢; exact h
      rw [if_neg h10] at h ⊢
      exact Except.noConfusion h
    · -- parseTernaryExpr
      intro ts pos r h
      unfold parseTernaryExpr at h ⊢
      cases hA : expectTok ts pos .OP_TERNARY with
      | error e => rw [hA] at h; dsimp only at h; exact Except.noConfusion h
      | ok v =>
        obtain ⟨t, p1⟩ := v
        rw [hA] at h
        dsimp only at h ⊢
        cases hB : expectTok ts p1 .DELIMITER_LPAREN with
        | error e => rw [hB] at h; dsimp only at h; exact Except.noConfusion h
        | ok v =>
          obtain ⟨u, p2⟩ := v
          rw [hB] at h
          dsimp only at h ⊢
          cases hC : parseBinaryExpr f ts p2 0 with
          | error e => rw [hC] at h; dsimp only at h; exact Except.noConfusion h
          | ok v =>
            obtain ⟨cond, p3⟩ := v
            rw [hC] at h
            rw [ihBE _ _ _ _ hC]
            dsimp only at h ⊢
            cases hD : expectTok ts p3 .DELIMITER_COMMA with
            | error e => rw [hD] at h; dsimp only at h; exact Except.noConfusion h
            | ok v =>
              obtain ⟨w, p4⟩ := v
              rw [hD] at h
              dsimp only at h ⊢
              cases hE : parseBinaryExpr f ts (skipNewlines ts p4) 0 with
              | error e => rw [hE] at h; dsimp only at h; exact Except.noConfusion h
              | ok v =>
                obtain ⟨tv, p6⟩ := v
                rw [hE] at h
                rw [ihBE _ _ _ _ hE]
                dsimp only at h ⊢
                cases hF : expectTok ts p6 .DELIMITER_COMMA with
                | error e => rw [hF] at h; dsimp only at h; exact Except.noConfusion h
                | ok v =>
                  obtain ⟨w2, p7⟩ := v
                  rw [hF] at h
                  dsimp only at h ⊢
                  cases hG : parseBinaryExpr f ts (skipNewlines ts p7) 0 with
                  | error e => rw [hG] at h; dsimp only at h; exact Except.noConfusion h
                  | ok v =>
                    obtain ⟨fv, p9⟩ := v
                    rw [hG] at h
                    rw [ihBE _ _ _ _ hG]
                    dsimp only at h ⊢
                    exact h
    · -- parseNewExpr
      intro ts pos r h
      unfold parseNewExpr at h ⊢
      cases hA : expectTok ts pos .KEYWORD_NEW with
      | error e => rw [hA] at h; dsimp only at h; exact Except.noConfusion h
      | ok v =>
        obtain ⟨t, p1⟩ := v
        rw [hA] at h
        dsimp only at h ⊢
        cases hB : expectTok ts p1 .IDENTIFIER with
        | error e => rw [hB] at h; dsimp only at h; exact Except.noConfusion h
        | ok v =>
          obtain ⟨typeTok, p2⟩ := v
          rw [hB] at h
          dsimp only at h ⊢
          by_cases h1 : (peekTok ts p2).type = .DELIMITER_LPAREN
          · rw [if_pos h1] at h ⊢
            by_cases h2 : (peekTok ts (advanceP ts p2)).type = .DELIMITER_RPAREN
            · rw [if_pos h2] at h ⊢
              dsimp only at h ⊢
              exact h
            · rw [if_neg h2] at h ⊢
              cases hArgs : parseArguments f ts (advanceP ts p2) with
              | error e => rw [hArgs] at h; dsimp only at h; exact Except.noConfusion h
              | ok v =>
                obtain ⟨args, p4⟩ := v
                rw [hArgs] at h
                rw [ihA _ _ _ hArgs]
                dsimp only at h ⊢
                exact h
          · rw [if_neg h1] at h ⊢
            exact h
    · -- parseArguments
      intro ts pos r h
      unfold parseArguments at h ⊢
      cases hB : parseBinaryExpr f ts pos 0 with
      | error e => rw [hB] at h; dsimp only at h; exact Except.noConfusion h
      | ok v =>
        obtain ⟨e, p1⟩ := v
        rw [hB] at h
        rw [ihBE _ _ _ _ hB]
        dsimp only at h ⊢
        exact ihAL _ _ _ _ h
    · -- argsLoop
      intro ts args pos r h
      unfold argsLoop at h ⊢
      by_cases h1 : (peekTok ts pos).type = .DELIMITER_COMMA
      · rw [if_pos h1] at h ⊢
        dsimp only at h ⊢
        cases hB : parseBinaryExpr f ts (skipNewlines ts (advanceP ts pos)) 0 with
        | error e => rw [hB] at h; dsimp only at h; exact Except.noConfusion h
        | ok v =>
          obtain ⟨e, p3⟩ := v
          rw [hB] at h
          rw [ihBE _ _ _ _ hB]
          dsimp only at h ⊢
          exact ihAL _ _ _ _ h
      · rw [if_neg h1] at h ⊢
        exact h
    · -- postfixLoop
      intro ts e pos r h
      unfold postfixLoop at h ⊢
      dsimp only at h ⊢
      by_cases h1 : (peekTok ts pos).type = .DELIMITER_DOT
      · rw [if_pos h1] at h ⊢
        cases hA : expectTok ts (advanceP ts pos) .IDENTIFIER with
        | error e' => rw [hA] at h; dsimp only at h; exact Except.noConfusion h
        | ok v =>
          obtain ⟨memberTok, p2⟩ := v
          rw [hA] at h
          dsimp only at h ⊢
          exact ihPL _ _ _ _ h
      rw [if_neg h1] at h ⊢
      by_cases h2 : (peekTok ts pos).type = .DELIMITER_LPAREN
      · rw [if_pos h2] at h ⊢
        by_cases h3 : (peekTok ts (advanceP ts pos)).type = .DELIMITER_RPAREN
        · rw [if_pos h3] at h ⊢
          dsimp only at h ⊢
          cases hA : expectTok ts (advanceP ts pos) .DELIMITER_RPAREN with
          | error e' => rw [hA] at h; dsimp only at h; exact Except.noConfusion h
          | ok v =>
            obtain ⟨w, p3⟩ := v
            rw [hA] at h
            dsimp only at h ⊢
            exact ihPL _ _ _ _ h
        · rw [if_neg h3] at h ⊢
          cases hArgs : parseArguments f ts (advanceP ts pos) with
          | error e' => rw [hArgs] at h; dsimp only at h; exact Except.noConfusion h
          | ok v =>
            obtain ⟨args, p2⟩ := v
            rw [hArgs] at h
            rw [ihA _ _ _ hArgs]
            dsimp only at h ⊢
            cases hA : expectTok ts p2 .DELIMITER_RPAREN with
            | error e' => rw [hA] at h; dsimp only at h; exact Except.noConfusion h
            | ok v =>
              obtain ⟨w, p3⟩ := v
              rw [hA] at h
              dsimp only at h ⊢
              exact ihPL _ _ _ _ h
      rw [if_neg h2] at h ⊢
      by_cases h4 : (peekTok ts pos).type = .DELIMITER_LBRACKET
      · rw [if_pos h4] at h ⊢
        cases hB : parseBinaryExpr f ts (advanceP ts pos) 0 with
        | error e' => rw [hB] at h; dsimp only at h; exact Except.noConfusion h
        | ok v =>
          obtain ⟨idx, p2⟩ := v
          rw [hB] at h
          rw [ihBE _ _ _ _ hB]
          dsimp only at h ⊢
          cases hA : expectTok ts p2 .DELIMITER_RBRACKET with
          | error e' => rw [hA] at h; dsimp only at h; exact Except.noConfusion h
          | ok v =>
            obtain ⟨w, p3⟩ := v
            rw [hA] at h
            dsimp only at h ⊢
            exact ihPL _ _ _ _ h
      rw [if_neg h4] at h ⊢
      exact h
    · -- parsePostfixExpr
      intro ts pos r h
      unfold parsePostfixExpr at h ⊢
      cases hP : parsePrimary f ts pos with
      | error e => rw [hP] at h; dsimp only at h; exact Except.noConfusion h
      | ok v =>
        obtain ⟨e, p⟩ := v
        rw [hP] at h
        rw [ihP _ _ _ hP]
        dsimp only at h ⊢
        exact ihPL _ _ _ _ h
    · -- parseUnary
      intro ts pos r h
      unfold parseUnary at h ⊢
      dsimp only at h ⊢
      by_cases h1 : (peekTok ts pos).type = .KEYWORD_NOT
      · rw [if_pos h1] at h ⊢
        cases hU : parseUnary f ts (advanceP ts pos) with
        | error e => rw [hU] at h; dsimp only at h; exact Except.noConfusion h
        | ok v =>
          obtain ⟨operand, p⟩ := v
          rw [hU] at h
          rw [ihU _ _ _ hU]
          dsimp only at h ⊢
          exact h
      rw [if_neg h1] at h ⊢
      by_cases h2 : (peekTok ts pos).type = .OP_MINUS
      · rw [if_pos h2] at h ⊢
        cases hU : parseUnary f ts (advanceP ts pos) with
        | error e => rw [hU] at h; dsimp only at h; exact Except.noConfusion h
        | ok v =>
          obtain ⟨operand, p⟩ := v
          rw [hU] at h
          rw [ihU _ _ _ hU]
          dsimp only at h ⊢
          exact h
      rw [if_neg h2] at h ⊢
      exact ihPE _ _ _ h
    · -- binLoop
      intro ts left pos mp r h
      unfold binLoop at h ⊢
      dsimp only at h ⊢
      cases hop : opOf (peekTok ts (skipNewlines ts pos)) with
      | none => rw [hop] at h; dsimp only at h ⊢; exact h
      | some op =>
        rw [hop] at h
        dsimp only at h ⊢
        cases hpr : precOf op with
        | none => rw [hpr] at h; dsimp only at h ⊢; exact h
        | some prec =>
          rw [hpr] at h
          dsimp only at h ⊢
          by_cases hlt : prec < mp
          · rw [if_pos hlt] at h ⊢
            exact h
          rw [if_neg hlt] at h ⊢
          cases hB : parseBinaryExpr f ts
              (skipNewlines ts (advanceP ts (skipNewlines ts pos))) (prec + 1) with
          | error e => rw [hB] at h; dsimp only at h; exact Except.noConfusion h
          | ok v =>
            obtain ⟨right, p4⟩ := v
            rw [hB] at h
            rw [ihBE _ _ _ _ hB]
            dsimp only at h ⊢
            exact ihB _ _ _ _ _ h
    · -- parseBinaryExpr
      intro ts pos mp r h
      unfold parseBinaryExpr at h ⊢
      cases hU : parseUnary f ts pos with
      | error e => rw [hU] at h; dsimp only at h; exact Except.noConfusion h
      | ok v =>
        obtain ⟨left, p⟩ := v
        rw [hU] at h
        rw [ihU _ _ _ hU]
        dsimp only at h ⊢
        exact ihB _ _ _ _ _ h
    · -- stmtClimb
      intro ts left pos r h
      unfold stmtClimb at h ⊢
      dsimp only at h ⊢
      cases hop : opOf (peekTok ts pos) with
      | none => rw [hop] at h; dsimp only at h ⊢; exact h
      | some op =>
        rw [hop] at h
        dsimp only at h ⊢
        cases hpr : precOf op with
        | none => rw [hpr] at h; dsimp only at h ⊢; exact h
        | some prec =>
          rw [hpr] at h
          dsimp only at h ⊢
          cases hB : parseBinaryExpr f ts (advanceP ts pos) (prec + 1) with
          | error e => rw [hB] at h; dsimp only at h; exact Except.noConfusion h
          | ok v =>
            obtain ⟨right, p4⟩ := v
            rw [hB] at h
            rw [ihBE _ _ _ _ hB]
            dsimp only at h ⊢
            exact ihS _ _ _ _ h


/-- Parser.peek returns a stream token or the placeholder. -/
theorem peekTok_mem_or_dummy (ts : List Token) (pos : Nat) :
    peekTok ts pos ∈ ts ∨ peekTok ts pos = dummyToken := by
  unfold peekTok
  cases hg : ts.get? pos with
  | some t => exact Or.inl (List.get?_mem hg)
  | none =>
    cases hl : ts.getLast? with
    | some t =>
      dsimp only [Option.getD]
      obtain ⟨hne, heq⟩ := List.mem_getLast?_eq_getLast hl
      exact Or.inl (heq ▸ List.getLast_mem hne)
    | none => exact Or.inr rfl

/-- In a stream without newline/comment tokens every peek is clean. -/
theorem peek_no_nl {ts : List Token} (hnl : noNlComment ts) (pos : Nat) :
    (peekTok ts pos).type ≠ .NEWLINE ∧ (peekTok ts pos).type ≠ .COMMENT := by
  rcases peekTok_mem_or_dummy ts pos with hm | hd
  · exact hnl _ hm
  · rw [hd]
    exact ⟨fun h => TokenType.noConfusion h, fun h => TokenType.noConfusion h⟩

/-- skip_newlines does not move when the current token is clean. -/
theorem skipNlAux_id {ts : List Token} {pos : Nat}
    (h1 : (peekTok ts pos).type ≠ .NEWLINE) (h2 : (peekTok ts pos).type ≠ .COMMENT) :
    ∀ fuel, skipNlAux ts fuel pos = pos := by
  intro fuel
  cases fuel with
  | zero => rfl
  | succ f => simp [skipNlAux, h1, h2]

/-- skip_newlines is the identity on newline/comment-free streams. -/
theorem skipNewlines_id {ts : List Token} (hnl : noNlComment ts) (pos : Nat) :
    skipNewlines ts pos = pos :=
  skipNlAux_id (peek_no_nl hnl pos).1 (peek_no_nl hnl pos).2 _

/-- An operator absent from PRECEDENCE has no precedence. -/
theorem precOf_none_of_not_mem {v : String} (h : memPrec v = false) :
    precOf v = none := by
  unfold memPrec at h
  unfold precOf
  cases hf : PRECEDENCE.find? (fun p => p.1 = v) with
  | none => rfl
  | some p => rw [hf] at h; exact Bool.noConfusion h

/-- On newline/comment-free streams the statement-level climbing loop
coincides with the expression parser's loop at min precedence 0. -/
theorem stmtClimb_eq_binLoop {ts : List Token} (hnl : noNlComment ts) :
    ∀ f left pos, stmtClimb f ts left pos = binLoop f ts left pos 0 := by
  intro f
  induction f with
  | zero => intro left pos; rfl
  | succ f ih =>
    intro left pos
    unfold stmtClimb binLoop
    simp only [skipNewlines_id hnl]
    cases hop : opOf (peekTok ts pos) with
    | none => rfl
    | some op =>
      dsimp only
      cases hpr : precOf op with
      | none => rfl
      | some prec =>
        dsimp only
        rw [if_neg (Nat.not_lt_zero prec)]
        cases hb : parseBinaryExpr f ts (advanceP ts pos) (prec + 1) with
        | error e => rfl
        | ok v =>
          obtain ⟨right, p4⟩ := v
          dsimp only
          exact ih _ _

/-- A successful primary parse never starts at НЕ or unary minus. -/
theorem parsePrimary_ok_head {f : Nat} {ts : List Token} {pos : Nat} {r : Expr × Nat}
    (h : parsePrimary f ts pos = .ok r) :
    (peekTok ts pos).type ≠ .KEYWORD_NOT ∧ (peekTok ts pos).type ≠ .OP_MINUS := by
  cases f with
  | zero => unfold parsePrimary at h; exact Except.noConfusion h
  | succ f =>
    constructor
    · intro ht
      unfold parsePrimary at h
      dsimp only at h
      rw [ht] at h
      simp at h
    · intro ht
      unfold parsePrimary at h
      dsimp only at h
      rw [ht] at h
      simp at h

/-- A successful postfix parse never starts at НЕ or unary minus. -/
theorem parsePostfixExpr_ok_head {f : Nat} {ts : List Token} {pos : Nat} {r : Expr × Nat}
    (h : parsePostfixExpr f ts pos = .ok r) :
    (peekTok ts pos).type ≠ .KEYWORD_NOT ∧ (peekTok ts pos).type ≠ .OP_MINUS := by
  cases f with
  | zero => unfold parsePostfixExpr at h; exact Except.noConfusion h
  | succ f =>
    unfold parsePostfixExpr at h
    cases hp : parsePrimary f ts pos with
    | error e => rw [hp] at h; exact Except.noConfusion h
    | ok v => exact parsePrimary_ok_head hp

/-- With no unary operator at the head, parse_unary_expression is
parse_postfix_expression. -/
theorem parseUnary_succ_eq (f : Nat) (ts : List Token) (pos : Nat)
    (h1 : (peekTok ts pos).type ≠ .KEYWORD_NOT)
    (h2 : (peekTok ts pos).type ≠ .OP_MINUS) :
    parseUnary (f + 1) ts pos = parsePostfixExpr f ts pos := by
  unfold parseUnary
  dsimp only
  rw [if_neg h1, if_neg h2]

/-- Claim C4 (corrected): when a bare statement starts with a postfix
expression not followed by `=`, the statement parser's climbing loop
produces exactly the tree of parse_expression on the same tokens and
then consumes the semicolon — provided no newline or comment token is
in the stream.  The newline-transparency half of the claim fails at
statement level (see the counterexample): the duplicated climbing loop
never calls skip_newlines. -/
theorem c4_statement_climb_refines_expression
    (F : Nat) (ts : List Token) (pos : Nat) (e0 : Expr) (p0 : Nat)
    (st : Stmt) (p1 : Nat)
    (hnl : noNlComment ts)
    (hpf : parsePostfixExpr F ts pos = .ok (e0, p0))
    (hna : (peekTok ts p0).type ≠ .OP_ASSIGN)
    (hrun : parseExprOrAssign F ts pos = .ok (st, p1)) :
    ∃ e p2 w, parseExpression (F + 2) ts pos = .ok (e, p2) ∧
      st = .exprStmt e e.line e.column ∧
      expectTok ts p2 .DELIMITER_SEMICOLON = .ok (w, p1) := by
  have hhead := parsePostfixExpr_ok_head hpf
  have hU : parseUnary (F + 1) ts pos = .ok (e0, p0) := by
    rw [parseUnary_succ_eq F ts pos hhead.1 hhead.2]; exact hpf
  have hPE : ∀ z : Expr × Nat, binLoop (F + 1) ts e0 p0 0 = .ok z →
      parseExpression (F + 2) ts pos = .ok z := by
    intro z hz
    have h2 : parseBinaryExpr (F + 1 + 1) ts pos 0 = .ok z := by
      unfold parseBinaryExpr
      rw [hU]
      exact hz
    exact h2
  unfold parseExprOrAssign at hrun
  rw [hpf] at hrun
  dsimp only at hrun
  rw [if_neg hna] at hrun
  by_cases hc : (memPrec (peekTok ts p0).value || (peekTok ts p0).type = .KEYWORD_AND
      || (peekTok ts p0).type = .KEYWORD_OR) = true
  · rw [if_pos hc] at hrun
    cases hsc : stmtClimb F ts e0 p0 with
    | error e => rw [hsc] at hrun; exact Except.noConfusion hrun
    | ok v =>
      obtain ⟨e1, pA⟩ := v
      rw [hsc] at hrun
      dsimp only at hrun
      cases hex : expectTok ts pA .DELIMITER_SEMICOLON with
      | error e => rw [hex] at hrun; exact Except.noConfusion hrun
      | ok v =>
        obtain ⟨w, pB⟩ := v
        rw [hex] at hrun
        dsimp only at hrun
        injection hrun with hrun
        injection hrun with hst hp1
        have hbF : binLoop F ts e0 p0 0 = .ok (e1, pA) := by
          rw [← stmtClimb_eq_binLoop hnl]; exact hsc
        have hbF1 : binLoop (F + 1) ts e0 p0 0 = .ok (e1, pA) :=
          (parserMono F).2.2.2.2.2.2.2.2.1 ts e0 p0 0 _ hbF
        exact ⟨e1, pA, w, hPE _ hbF1, hst.symm, by rw [← hp1]; exact hex⟩
  · rw [if_neg hc] at hrun
    dsimp only at hrun
    cases hex : expectTok ts p0 .DELIMITER_SEMICOLON with
    | error e => rw [hex] at hrun; exact Except.noConfusion hrun
    | ok v =>
      obtain ⟨w, pB⟩ := v
      rw [hex] at hrun
      dsimp only at hrun
      injection hrun with hrun
      injection hrun with hst hp1
      have hcond : memPrec (peekTok ts p0).value = false ∧
          (peekTok ts p0).type ≠ .KEYWORD_AND ∧ (peekTok ts p0).type ≠ .KEYWORD_OR := by
        simp only [Bool.or_eq_true, decide_eq_true_eq, not_or] at hc
        exact ⟨Bool.eq_false_iff.mpr hc.1.1, hc.1.2, hc.2⟩
      have hb1 : binLoop (F + 1) ts e0 p0 0 = .ok (e0, p0) := by
        unfold binLoop
        simp only [skipNewlines_id hnl]
        cases hop : opOf (peekTok ts p0) with
        | none => rfl
        | some op =>
          have hop2 := hop
          unfold opOf at hop2
          rw [if_neg hcond.2.1, if_neg hcond.2.2] at hop2
          by_cases hOP : pyStartsWith (ttName (peekTok ts p0).type) "OP_" = true
          · rw [if_pos hOP] at hop2
            injection hop2 with hop2
            dsimp only
            rw [← hop2, precOf_none_of_not_mem hcond.1]
          · rw [if_neg hOP] at hop2
            exact Option.noConfusion hop2
      exact ⟨e0, p0, w, hPE _ hb1, hst.symm, by rw [← hp1]; exact hex⟩

/-- The newline-skipping part of claim C4 refuted: `a +\n b;` as a bare
statement fails with "Unexpected token in expression" on the newline,
while parse_expression parses the same tokens across the line break. -/
theorem c4_counterexample :
    parseExprOrAssign bigFuel (tokensOf "a +\nb;") 0 =
      .error ⟨"Unexpected token in expression: \\n", ⟨.NEWLINE, "\\n", 1, 4⟩⟩ ∧
    parseExpression bigFuel (tokensOf "a +\nb;") 0 =
      .ok (.binaryOp (.identifier "a" 1 1) "+" (.identifier "b" 2 1) 1 3, 4) :=
  ⟨by rfl, by rfl⟩

/-- Witness instantiating the C4 refinement on the tokens of `a + b;`. -/
theorem c4_witness :
    ∃ e p2 w, parseExpression (bigFuel + 2) (tokensOf "a + b;") 0 = .ok (e, p2) ∧
      (Stmt.exprStmt (.binaryOp (.identifier "a" 1 1) "+" (.identifier "b" 1 5) 1 3) 1 3)
        = .exprStmt e e.line e.column ∧
      expectTok (tokensOf "a + b;") p2 .DELIMITER_SEMICOLON = .ok (w, 4) :=
  c4_statement_climb_refines_expression bigFuel (tokensOf "a + b;") 0 (.identifier "a" 1 1) 1
    (.exprStmt (.binaryOp (.identifier "a" 1 1) "+" (.identifier "b" 1 5) 1 3) 1 3) 4
    (show ∀ t ∈ tokensOf "a + b;", t.type ≠ .NEWLINE ∧ t.type ≠ .COMMENT from by decide)
    rfl (by decide) rfl


/-- scopeGet and the underlying find? succeed together. -/
theorem isSome_scopeGet (sc : Scope) (key : String) :
    (scopeGet sc key).isSome = (sc.find? (fun p => p.1 = key)).isSome := by
  unfold scopeGet
  cases sc.find? (fun p => p.1 = key) <;> rfl

/-- Dict assignment never loses a present key. -/
theorem scopeGet_scopeSet_isSome {sc : Scope} {key : String} (k : String) (v : Symbol)
    (h : (scopeGet sc key).isSome = true) :
    (scopeGet (scopeSet sc k v) key).isSome = true := by
  rw [isSome_scopeGet] at h ⊢
  unfold scopeSet
  by_cases ha : sc.any (fun p => p.1 = k) = true
  · rw [if_pos ha]
    clear ha
    induction sc with
    | nil => simp at h
    | cons a tl ih =>
      rw [List.map_cons]
      by_cases hak : a.1 = k
      · rw [if_pos hak]
        by_cases hkk : k = key
        · rw [List.find?_cons_of_pos _ (by simp [hkk])]
          rfl
        · have hkey : ¬ (a.1 = key) := fun hh => hkk (hak.symm.trans hh)
          rw [List.find?_cons_of_neg _ (by simp [hkk])]
          rw [List.find?_cons_of_neg _ (by simp [hkey])] at h
          exact ih h
      · rw [if_neg hak]
        by_cases hkey : a.1 = key
        · rw [List.find?_cons_of_pos _ (by simp [hkey])]
          rfl
        · rw [List.find?_cons_of_neg _ (by simp [hkey])] at h
          rw [List.find?_cons_of_neg _ (by simp [hkey])]
          exact ih h
  · rw [if_neg ha]
    rw [List.find?_append]
    cases hf : sc.find? (fun p => p.1 = key) with
    | none => rw [hf] at h; simp at h
    | some p => simp

/-- Dict assignment makes its key present. -/
theorem scopeGet_scopeSet_self (sc : Scope) (k : String) (v : Symbol) :
    (scopeGet (scopeSet sc k v) k).isSome = true := by
  rw [isSome_scopeGet]
  unfold scopeSet
  by_cases ha : sc.any (fun p => p.1 = k) = true
  · rw [if_pos ha]
    induction sc with
    | nil => simp at ha
    | cons a tl ih =>
      rw [List.map_cons]
      by_cases hak : a.1 = k
      · rw [if_pos hak]
        rw [List.find?_cons_of_pos _ (by simp)]
        rfl
      · rw [if_neg hak]
        rw [List.find?_cons_of_neg _ (by simp [hak])]
        simp only [List.any_cons, Bool.or_eq_true, decide_eq_true_eq] at ha
        rcases ha with ha | ha
        · exact absurd ha hak
        · exact ih ha
  · rw [if_neg ha]
    rw [List.find?_append]
    cases hf : sc.find? (fun p => p.1 = k) with
    | none => simp [List.find?]
    | some p => simp

/-- scopesFind over a cons splits into head and tail searches. -/
theorem scopesFind_cons_isSome (sc : Scope) (rest : List Scope) (key : String) :
    (scopesFind (sc :: rest) key).isSome =
      ((scopeGet sc key).isSome || (scopesFind rest key).isSome) := by
  show (match scopeGet sc key with
        | some s => some s
        | none => scopesFind rest key).isSome = _
  cases hg : scopeGet sc key with
  | some s => simp
  | none => simp

/-- SymbolTable.define never loses a resolvable key. -/
theorem foundKey_define {key : String} {tab : SymbolTable}
    (h : foundKey key tab) (name : String) (sym : Symbol) :
    foundKey key (tab.define name sym) := by
  unfold foundKey at h ⊢
  unfold SymbolTable.define
  cases hs : tab.scopes with
  | nil =>
    dsimp only
    rw [hs]
    rw [hs] at h
    exact h
  | cons top rest =>
    rw [hs] at h
    dsimp only
    rw [scopesFind_cons_isSome] at h ⊢
    simp only [Bool.or_eq_true] at h ⊢
    rcases h with h1 | h1
    · exact Or.inl (scopeGet_scopeSet_isSome _ _ h1)
    · exact Or.inr h1

/-- SymbolTable.define makes its own (lowercased) key resolvable when
some scope is open. -/
theorem foundKey_define_self {tab : SymbolTable} (hne : tab.scopes ≠ [])
    (name : String) (sym : Symbol) :
    foundKey (pyLowerStr name) (tab.define name sym) := by
  unfold foundKey
  unfold SymbolTable.define
  cases hs : tab.scopes with
  | nil => exact absurd hs hne
  | cons top rest =>
    dsimp only
    rw [scopesFind_cons_isSome]
    rw [scopeGet_scopeSet_self]
    rfl

/-- SymbolTable.define keeps the scope stack nonempty. -/
theorem define_scopes_ne_nil {tab : SymbolTable} (hne : tab.scopes ≠ [])
    (name : String) (sym : Symbol) : (tab.define name sym).scopes ≠ [] := by
  unfold SymbolTable.define
  cases hs : tab.scopes with
  | nil => exact absurd hs hne
  | cons top rest => simp

/-- The reported spelling determines an undefined-variable message. -/
theorem undefinedVarError_name_inj {a b : String} {l c l' c' : Nat}
    (h : undefinedVarError a l c = undefinedVarError b l' c') : a = b := by
  have hm := congrArg SemanticError.message h
  have hd : (("Undefined variable ".data ++ quoteChar.toString.data) ++ a.data)
        ++ quoteChar.toString.data
      = (("Undefined variable ".data ++ quoteChar.toString.data) ++ b.data)
        ++ quoteChar.toString.data := congrArg String.data hm
  have h2 := List.append_cancel_left (List.append_cancel_right hd)
  cases a; cases b; exact congrArg String.mk h2

/-- The reported spelling determines an undefined-call message. -/
theorem undefinedCallError_name_inj {a b : String} {l c l' c' : Nat}
    (h : undefinedCallError a l c = undefinedCallError b l' c') : a = b := by
  have hm := congrArg SemanticError.message h
  have hd : (("Call to undefined function ".data ++ quoteChar.toString.data) ++ a.data)
        ++ quoteChar.toString.data
      = (("Call to undefined function ".data ++ quoteChar.toString.data) ++ b.data)
        ++ quoteChar.toString.data := congrArg String.data hm
  have h2 := List.append_cancel_left (List.append_cancel_right hd)
  cases a; cases b; exact congrArg String.mk h2

/-- Variable and call diagnostics are never the same value. -/
theorem undefinedVarError_ne_call (a b : String) (l c l' c' : Nat) :
    undefinedVarError a l c ≠ undefinedCallError b l' c' := by
  intro h
  have h1 : (undefinedVarError a l c).message.data.head? = some 'U' := rfl
  rw [h] at h1
  have h2 : (undefinedCallError b l' c').message.data.head? = some 'C' := rfl
  rw [h2] at h1
  exact absurd h1 (by decide)

/-- A type diagnostic is never an undefined-variable diagnostic. -/
theorem unknownTypeError_not_keyErr (key a : String) (l c : Nat) :
    ¬ keyErr key (unknownTypeError a l c) := by
  rintro ⟨nm, l', c', hlow, hcase | hcase⟩
  · have h1 : (unknownTypeError a l c).errorType = "undefined_type" := rfl
    rw [hcase] at h1
    have h2 : (undefinedVarError nm l' c').errorType = "undefined_variable" := rfl
    rw [h2] at h1
    exact absurd h1 (by decide)
  · have h1 : (unknownTypeError a l c).errorType = "undefined_type" := rfl
    rw [hcase] at h1
    have h2 : (undefinedCallError nm l' c').errorType = "undefined_variable" := rfl
    rw [h2] at h1
    exact absurd h1 (by decide)

/-- A fold of defines keeps the stack nonempty and makes every folded
(lowercased) name resolvable while preserving resolvable keys. -/
theorem foldl_define_found {α : Type} (nameOf : α → String) (mk : SymbolTable → α → Symbol) :
    ∀ (xs : List α) (tab : SymbolTable), tab.scopes ≠ [] →
      (xs.foldl (fun t x => t.define (nameOf x) (mk t x)) tab).scopes ≠ [] ∧
      ∀ key, (foundKey key tab ∨ key ∈ xs.map (fun x => pyLowerStr (nameOf x))) →
        foundKey key (xs.foldl (fun t x => t.define (nameOf x) (mk t x)) tab) := by
  intro xs
  induction xs with
  | nil =>
    intro tab hne
    refine ⟨hne, fun key h => ?_⟩
    rcases h with h | h
    · exact h
    · simp at h
  | cons x rest ih =>
    intro tab hne
    dsimp only [List.foldl]
    have hne1 := define_scopes_ne_nil hne (nameOf x) (mk tab x)
    obtain ⟨hr1, hr2⟩ := ih (tab.define (nameOf x) (mk tab x)) hne1
    refine ⟨hr1, fun key hk => ?_⟩
    rcases hk with hk | hk
    · exact hr2 key (Or.inl (foundKey_define hk _ _))
    · rw [List.map_cons, List.mem_cons] at hk
      rcases hk with hk | hk
      · subst hk
        exact hr2 _ (Or.inl (foundKey_define_self hne _ _))
      · exact hr2 key (Or.inr hk)

mutual

/-- _recollect_local_vars over a body: the stack stays nonempty, keys
stay resolvable, and every declared name becomes resolvable. -/
theorem recollectLocalVars_found (body : List Stmt) :
    ∀ tab : SymbolTable, tab.scopes ≠ [] →
      (recollectLocalVars body tab).scopes ≠ [] ∧
      ∀ key, (foundKey key tab ∨ key ∈ declNamesBody body) →
        foundKey key (recollectLocalVars body tab) := by
  match body with
  | [] =>
    intro tab hne
    refine ⟨hne, fun key h => ?_⟩
    rcases h with h | h
    · exact h
    · simp [declNamesBody] at h
  | s :: rest =>
    intro tab hne
    show (recollectLocalVars rest (recollectStmt s tab)).scopes ≠ [] ∧ _
    obtain ⟨h1, h2⟩ := recollectStmt_found s tab hne
    obtain ⟨h3, h4⟩ := recollectLocalVars_found rest (recollectStmt s tab) h1
    refine ⟨h3, fun key hk => ?_⟩
    rcases hk with hk | hk
    · exact h4 key (Or.inl (h2 key (Or.inl hk)))
    · rw [show declNamesBody (s :: rest) = declNamesStmt s ++ declNamesBody rest from rfl,
        List.mem_append] at hk
      rcases hk with hk | hk
      · exact h4 key (Or.inl (h2 key (Or.inr hk)))
      · exact h4 key (Or.inr hk)

/-- _recollect_local_vars at one statement. -/
theorem recollectStmt_found (s : Stmt) :
    ∀ tab : SymbolTable, tab.scopes ≠ [] →
      (recollectStmt s tab).scopes ≠ [] ∧
      ∀ key, (foundKey key tab ∨ key ∈ declNamesStmt s) →
        foundKey key (recollectStmt s tab) := by
  match s with
  | .varDecl d =>
    intro tab hne
    exact foldl_define_found (fun n => n)
      (fun t n => ⟨n, "variable", d.line, d.column, t.currentScopeLevel, false⟩)
      d.names tab hne
  | .forStmt v s e body l c =>
    intro tab hne
    have hne1 := define_scopes_ne_nil hne v
      ⟨v, "loop_variable", l, c, tab.currentScopeLevel, false⟩
    obtain ⟨h1, h2⟩ := recollectLocalVars_found body _ hne1
    refine ⟨h1, fun key hk => ?_⟩
    rcases hk with hk | hk
    · exact h2 key (Or.inl (foundKey_define hk _ _))
    · rw [show declNamesStmt (.forStmt v s e body l c)
          = pyLowerStr v :: declNamesBody body from rfl, List.mem_cons] at hk
      rcases hk with hk | hk
      · subst hk
        exact h2 _ (Or.inl (foundKey_define_self hne _ _))
      · exact h2 key (Or.inr hk)
  | .forEachStmt v coll body l c =>
    intro tab hne
    have hne1 := define_scopes_ne_nil hne v
      ⟨v, "loop_variable", l, c, tab.currentScopeLevel, false⟩
    obtain ⟨h1, h2⟩ := recollectLocalVars_found body _ hne1
    refine ⟨h1, fun key hk => ?_⟩
    rcases hk with hk | hk
    · exact h2 key (Or.inl (foundKey_define hk _ _))
    · rw [show declNamesStmt (.forEachStmt v coll body l c)
          = pyLowerStr v :: declNamesBody body from rfl, List.mem_cons] at hk
      rcases hk with hk | hk
      · subst hk
        exact h2 _ (Or.inl (foundKey_define_self hne _ _))
      · exact h2 key (Or.inr hk)
  | .ifStmt cond thenB elifs elseB l c =>
    intro tab hne
    obtain ⟨h1, h2⟩ := recollectLocalVars_found thenB tab hne
    obtain ⟨h3, h4⟩ := recollectElifs_found elifs _ h1
    match elseB with
    | some b =>
      obtain ⟨h5, h6⟩ := recollectLocalVars_found b _ h3
      refine ⟨h5, fun key hk => ?_⟩
      rcases hk with hk | hk
      · exact h6 key (Or.inl (h4 key (Or.inl (h2 key (Or.inl hk)))))
      · rw [show declNamesStmt (.ifStmt cond thenB elifs (some b) l c)
            = declNamesBody thenB ++ declNamesElifs elifs ++ declNamesBody b from rfl,
          List.mem_append, List.mem_append] at hk
        rcases hk with (hk | hk) | hk
        · exact h6 key (Or.inl (h4 key (Or.inl (h2 key (Or.inr hk)))))
        · exact h6 key (Or.inl (h4 key (Or.inr hk)))
        · exact h6 key (Or.inr hk)
    | none =>
      refine ⟨h3, fun key hk => ?_⟩
      rcases hk with hk | hk
      · exact h4 key (Or.inl (h2 key (Or.inl hk)))
      · rw [show declNamesStmt (.ifStmt cond thenB elifs none l c)
            = declNamesBody thenB ++ declNamesElifs elifs ++ [] from rfl,
          List.mem_append, List.mem_append] at hk
        rcases hk with (hk | hk) | hk
        · exact h4 key (Or.inl (h2 key (Or.inr hk)))
        · exact h4 key (Or.inr hk)
        · simp at hk
  | .whileStmt cond body l c =>
    intro tab hne
    obtain ⟨h1, h2⟩ := recollectLocalVars_found body tab hne
    exact ⟨h1, fun key hk => h2 key hk⟩
  | .tryStmt tb eb l c =>
    intro tab hne
    obtain ⟨h1, h2⟩ := recollectLocalVars_found tb tab hne
    obtain ⟨h3, h4⟩ := recollectLocalVars_found eb _ h1
    refine ⟨h3, fun key hk => ?_⟩
    rcases hk with hk | hk
    · exact h4 key (Or.inl (h2 key (Or.inl hk)))
    · rw [show declNamesStmt (.tryStmt tb eb l c)
          = declNamesBody tb ++ declNamesBody eb from rfl, List.mem_append] at hk
      rcases hk with hk | hk
      · exact h4 key (Or.inl (h2 key (Or.inr hk)))
      · exact h4 key (Or.inr hk)
  | .assignment t v l c => intro tab hne; exact ⟨hne, fun key hk => by
      rcases hk with hk | hk
      · exact hk
      · simp [declNamesStmt] at hk⟩
  | .returnStmt v l c => intro tab hne; exact ⟨hne, fun key hk => by
      rcases hk with hk | hk
      · exact hk
      · simp [declNamesStmt] at hk⟩
  | .breakStmt l c => intro tab hne; exact ⟨hne, fun key hk => by
      rcases hk with hk | hk
      · exact hk
      · simp [declNamesStmt] at hk⟩
  | .continueStmt l c => intro tab hne; exact ⟨hne, fun key hk => by
      rcases hk with hk | hk
      · exact hk
      · simp [declNamesStmt] at hk⟩
  | .raiseStmt v l c => intro tab hne; exact ⟨hne, fun key hk => by
      rcases hk with hk | hk
      · exact hk
      · simp [declNamesStmt] at hk⟩
  | .awaitStmt e l c => intro tab hne; exact ⟨hne, fun key hk => by
      rcases hk with hk | hk
      · exact hk
      · simp [declNamesStmt] at hk⟩
  | .exprStmt e l c => intro tab hne; exact ⟨hne, fun key hk => by
      rcases hk with hk | hk
      · exact hk
      · simp [declNamesStmt] at hk⟩

/-- _recollect_local_vars over elif branches. -/
theorem recollectElifs_found (branches : List (Expr × List Stmt)) :
    ∀ tab : SymbolTable, tab.scopes ≠ [] →
      (recollectElifs branches tab).scopes ≠ [] ∧
      ∀ key, (foundKey key tab ∨ key ∈ declNamesElifs branches) →
        foundKey key (recollectElifs branches tab) := by
  match branches with
  | [] =>
    intro tab hne
    refine ⟨hne, fun key h => ?_⟩
    rcases h with h | h
    · exact h
    · simp [declNamesElifs] at h
  | (cond, b) :: rest =>
    intro tab hne
    obtain ⟨h1, h2⟩ := recollectLocalVars_found b tab hne
    obtain ⟨h3, h4⟩ := recollectElifs_found rest _ h1
    refine ⟨h3, fun key hk => ?_⟩
    rcases hk with hk | hk
    · exact h4 key (Or.inl (h2 key (Or.inl hk)))
    · rw [show declNamesElifs ((cond, b) :: rest)
          = declNamesBody b ++ declNamesElifs rest from rfl, List.mem_append] at hk
      rcases hk with hk | hk
      · exact h4 key (Or.inl (h2 key (Or.inr hk)))
      · exact h4 key (Or.inr hk)

end

mutual

/-- Expression checking never touches the symbol table. -/
theorem checkExpr_tab (e : Expr) : ∀ st : ChkState, (checkExpr e st).tab = st.tab := by
  match e with
  | .identifier name l c =>
    intro st
    show (match st.tab.lookupSym name with
          | some _ => st
          | none => st.addError (undefinedVarError name l c)).tab = st.tab
    cases st.tab.lookupSym name <;> rfl
  | .binaryOp left op right l c =>
    intro st
    show (checkExpr right (checkExpr left st)).tab = st.tab
    rw [checkExpr_tab right, checkExpr_tab left]
  | .unaryOp op operand l c =>
    intro st
    show (checkExpr operand st).tab = st.tab
    rw [checkExpr_tab operand]
  | .ternary cond tv fv l c =>
    intro st
    show (checkExpr fv (checkExpr tv (checkExpr cond st))).tab = st.tab
    rw [checkExpr_tab fv, checkExpr_tab tv, checkExpr_tab cond]
  | .call fn args l c =>
    intro st
    match fn with
    | .identifier name l' c' =>
      show (checkExprList args
        (match st.tab.lookupSym name with
         | some _ => st
         | none => st.addError (undefinedCallError name l' c'))).tab = st.tab
      rw [checkExprList_tab args]
      cases st.tab.lookupSym name <;> rfl
    | .binaryOp a b c' d e' =>
      show (checkExprList args (checkExpr (.binaryOp a b c' d e') st)).tab = st.tab
      rw [checkExprList_tab args, checkExpr_tab (.binaryOp a b c' d e')]
    | .unaryOp a b c' d =>
      show (checkExprList args (checkExpr (.unaryOp a b c' d) st)).tab = st.tab
      rw [checkExprList_tab args, checkExpr_tab (.unaryOp a b c' d)]
    | .ternary a b c' d e' =>
      show (checkExprList args (checkExpr (.ternary a b c' d e') st)).tab = st.tab
      rw [checkExprList_tab args, checkExpr_tab (.ternary a b c' d e')]
    | .call a b c' d =>
      show (checkExprList args (checkExpr (.call a b c' d) st)).tab = st.tab
      rw [checkExprList_tab args, checkExpr_tab (.call a b c' d)]
    | .memberAccess a b c' d =>
      show (checkExprList args (checkExpr (.memberAccess a b c' d) st)).tab = st.tab
      rw [checkExprList_tab args, checkExpr_tab (.memberAccess a b c' d)]
    | .indexAccess a b c' d =>
      show (checkExprList args (checkExpr (.indexAccess a b c' d) st)).tab = st.tab
      rw [checkExprList_tab args, checkExpr_tab (.indexAccess a b c' d)]
    | .newExpr a b c' d =>
      show (checkExprList args (checkExpr (.newExpr a b c' d) st)).tab = st.tab
      rw [checkExprList_tab args, checkExpr_tab (.newExpr a b c' d)]
    | .literal a b c' d =>
      show (checkExprList args (checkExpr (.literal a b c' d) st)).tab = st.tab
      rw [checkExprList_tab args, checkExpr_tab (.literal a b c' d)]
  | .memberAccess obj m l c =>
    intro st
    show (checkExpr obj st).tab = st.tab
    rw [checkExpr_tab obj]
  | .indexAccess obj idx l c =>
    intro st
    show (checkExpr idx (checkExpr obj st)).tab = st.tab
    rw [checkExpr_tab idx, checkExpr_tab obj]
  | .newExpr typeName args l c =>
    intro st
    show (checkExprList args _).tab = st.tab
    rw [checkExprList_tab args]
    by_cases ht : typeName = ""
    · rw [if_pos ht]
    · rw [if_neg ht]
      cases st.tab.lookupSym typeName <;> rfl
  | .literal v k l c => intro st; rfl

/-- Argument checking never touches the symbol table. -/
theorem checkExprList_tab (es : List Expr) : ∀ st : ChkState, (checkExprList es st).tab = st.tab := by
  match es with
  | [] => intro st; rfl
  | e :: rest =>
    intro st
    show (checkExprList rest (checkExpr e st)).tab = st.tab
    rw [checkExprList_tab rest, checkExpr_tab e]

end

mutual

/-- No new undefined_variable diagnostic for a resolvable key is
produced by expression checking. -/
theorem checkExpr_keyErr (key : String) (e : Expr) : ∀ st : ChkState,
    foundKey key st.tab →
    ∀ err, err ∈ (checkExpr e st).errors → err ∈ st.errors ∨ ¬ keyErr key err := by
  match e with
  | .identifier name l c =>
    intro st hf err
    show err ∈ (match st.tab.lookupSym name with
        | some _ => st
        | none => st.addError (undefinedVarError name l c)).errors →
      err ∈ st.errors ∨ ¬ keyErr key err
    cases hl : st.tab.lookupSym name with
    | some s => intro he; exact Or.inl he
    | none =>
      intro he
      rw [show (st.addError (undefinedVarError name l c)).errors
          = st.errors ++ [undefinedVarError name l c] from rfl, List.mem_append] at he
      rcases he with he | he
      · exact Or.inl he
      · rw [List.mem_singleton] at he
        subst he
        refine Or.inr ?_
        rintro ⟨nm, l', c', hlow, hcase | hcase⟩
        · have hname := undefinedVarError_name_inj hcase
          have hsome : (scopesFind st.tab.scopes key).isSome = true := hf
          rw [← hlow, ← hname] at hsome
          unfold SymbolTable.lookupSym at hl
          rw [hl] at hsome
          exact Bool.noConfusion hsome
        · exact undefinedVarError_ne_call name nm l c l' c' hcase
  | .binaryOp left op right l c =>
    intro st hf err he
    have hf1 : foundKey key (checkExpr left st).tab := by
      rw [checkExpr_tab left]; exact hf
    have h2 := checkExpr_keyErr key right (checkExpr left st) hf1 err he
    rcases h2 with h2 | h2
    · exact checkExpr_keyErr key left st hf err h2
    · exact Or.inr h2
  | .unaryOp op operand l c =>
    intro st hf err he
    exact checkExpr_keyErr key operand st hf err he
  | .ternary cond tv fv l c =>
    intro st hf err he
    have hfc : foundKey key (checkExpr cond st).tab := by
      rw [checkExpr_tab cond]; exact hf
    have hft : foundKey key (checkExpr tv (checkExpr cond st)).tab := by
      rw [checkExpr_tab tv, checkExpr_tab cond]; exact hf
    have h3 := checkExpr_keyErr key fv _ hft err he
    rcases h3 with h3 | h3
    · have h2 := checkExpr_keyErr key tv _ hfc err h3
      rcases h2 with h2 | h2
      · exact checkExpr_keyErr key cond st hf err h2
      · exact Or.inr h2
    · exact Or.inr h3
  | .call fn args l c =>
    match fn with
    | .identifier name l' c' =>
      intro st hf err
      show err ∈ (checkExprList args
          (match st.tab.lookupSym name with
           | some _ => st
           | none => st.addError (undefinedCallError name l' c'))).errors →
        err ∈ st.errors ∨ ¬ keyErr key err
      cases hl : st.tab.lookupSym name with
      | some s =>
        intro he
        exact checkExprList_keyErr key args st hf err he
      | none =>
        intro he
        have hf1 : foundKey key (st.addError (undefinedCallError name l' c')).tab := hf
        have h2 := checkExprList_keyErr key args _ hf1 err he
        rcases h2 with h2 | h2
        · rw [show (st.addError (undefinedCallError name l' c')).errors
              = st.errors ++ [undefinedCallError name l' c'] from rfl,
            List.mem_append] at h2
          rcases h2 with h2 | h2
          · exact Or.inl h2
          · rw [List.mem_singleton] at h2
            subst h2
            refine Or.inr ?_
            rintro ⟨nm, l2, c2, hlow, hcase | hcase⟩
            · exact undefinedVarError_ne_call nm name l2 c2 l' c' hcase.symm
            · have hname := undefinedCallError_name_inj hcase
              have hsome : (scopesFind st.tab.scopes key).isSome = true := hf
              rw [← hlow, ← hname] at hsome
              unfold SymbolTable.lookupSym at hl
              rw [hl] at hsome
              exact Bool.noConfusion hsome
        · exact Or.inr h2
    | .binaryOp a b c2 d e2 =>
      intro st hf err he
      have hf1 : foundKey key (checkExpr (.binaryOp a b c2 d e2) st).tab := by
        rw [checkExpr_tab (.binaryOp a b c2 d e2)]; exact hf
      have h2 := checkExprList_keyErr key args (checkExpr (.binaryOp a b c2 d e2) st) hf1 err he
      rcases h2 with h2 | h2
      · exact checkExpr_keyErr key (.binaryOp a b c2 d e2) st hf err h2
      · exact Or.inr h2
    | .unaryOp a b c2 d =>
      intro st hf err he
      have hf1 : foundKey key (checkExpr (.unaryOp a b c2 d) st).tab := by
        rw [checkExpr_tab (.unaryOp a b c2 d)]; exact hf
      have h2 := checkExprList_keyErr key args (checkExpr (.unaryOp a b c2 d) st) hf1 err he
      rcases h2 with h2 | h2
      · exact checkExpr_keyErr key (.unaryOp a b c2 d) st hf err h2
      · exact Or.inr h2
    | .ternary a b c2 d e2 =>
      intro st hf err he
      have hf1 : foundKey key (checkExpr (.ternary a b c2 d e2) st).tab := by
        rw [checkExpr_tab (.ternary a b c2 d e2)]; exact hf
      have h2 := checkExprList_keyErr key args (checkExpr (.ternary a b c2 d e2) st) hf1 err he
      rcases h2 with h2 | h2
      · exact checkExpr_keyErr key (.ternary a b c2 d e2) st hf err h2
      · exact Or.inr h2
    | .call a b c2 d =>
      intro st hf err he
      have hf1 : foundKey key (checkExpr (.call a b c2 d) st).tab := by
        rw [checkExpr_tab (.call a b c2 d)]; exact hf
      have h2 := checkExprList_keyErr key args (checkExpr (.call a b c2 d) st) hf1 err he
      rcases h2 with h2 | h2
      · exact checkExpr_keyErr key (.call a b c2 d) st hf err h2
      · exact Or.inr h2
    | .memberAccess a b c2 d =>
      intro st hf err he
      have hf1 : foundKey key (checkExpr (.memberAccess a b c2 d) st).tab := by
        rw [checkExpr_tab (.memberAccess a b c2 d)]; exact hf
      have h2 := checkExprList_keyErr key args (checkExpr (.memberAccess a b c2 d) st) hf1 err he
      rcases h2 with h2 | h2
      · exact checkExpr_keyErr key (.memberAccess a b c2 d) st hf err h2
      · exact Or.inr h2
    | .indexAccess a b c2 d =>
      intro st hf err he
      have hf1 : foundKey key (checkExpr (.indexAccess a b c2 d) st).tab := by
        rw [checkExpr_tab (.indexAccess a b c2 d)]; exact hf
      have h2 := checkExprList_keyErr key args (checkExpr (.indexAccess a b c2 d) st) hf1 err he
      rcases h2 with h2 | h2
      · exact checkExpr_keyErr key (.indexAccess a b c2 d) st hf err h2
      · exact Or.inr h2
    | .newExpr a b c2 d =>
      intro st hf err he
      have hf1 : foundKey key (checkExpr (.newExpr a b c2 d) st).tab := by
        rw [checkExpr_tab (.newExpr a b c2 d)]; exact hf
      have h2 := checkExprList_keyErr key args (checkExpr (.newExpr a b c2 d) st) hf1 err he
      rcases h2 with h2 | h2
      · exact checkExpr_keyErr key (.newExpr a b c2 d) st hf err h2
      · exact Or.inr h2
    | .literal a b c2 d =>
      intro st hf err he
      have hf1 : foundKey key (checkExpr (.literal a b c2 d) st).tab := by
        rw [checkExpr_tab (.literal a b c2 d)]; exact hf
      have h2 := checkExprList_keyErr key args (checkExpr (.literal a b c2 d) st) hf1 err he
      rcases h2 with h2 | h2
      · exact checkExpr_keyErr key (.literal a b c2 d) st hf err h2
      · exact Or.inr h2
  | .memberAccess obj m l c =>
    intro st hf err he
    exact checkExpr_keyErr key obj st hf err he
  | .indexAccess obj idx l c =>
    intro st hf err he
    have hf1 : foundKey key (checkExpr obj st).tab := by
      rw [checkExpr_tab obj]; exact hf
    have h2 := checkExpr_keyErr key idx (checkExpr obj st) hf1 err he
    rcases h2 with h2 | h2
    · exact checkExpr_keyErr key obj st hf err h2
    · exact Or.inr h2
  | .newExpr typeName args l c =>
    intro st hf err
    show err ∈ (checkExprList args
        (if typeName = "" then st
         else match st.tab.lookupSym typeName with
              | some _ => st
              | none => st.addError (unknownTypeError typeName l c))).errors →
      err ∈ st.errors ∨ ¬ keyErr key err
    by_cases ht : typeName = ""
    · rw [if_pos ht]
      intro he
      exact checkExprList_keyErr key args st hf err he
    · rw [if_neg ht]
      cases hl : st.tab.lookupSym typeName with
      | some s =>
        intro he
        exact checkExprList_keyErr key args st hf err he
      | none =>
        intro he
        have hf1 : foundKey key (st.addError (unknownTypeError typeName l c)).tab := hf
        have h2 := checkExprList_keyErr key args _ hf1 err he
        rcases h2 with h2 | h2
        · rw [show (st.addError (unknownTypeError typeName l c)).errors
              = st.errors ++ [unknownTypeError typeName l c] from rfl,
            List.mem_append] at h2
          rcases h2 with h2 | h2
          · exact Or.inl h2
          · rw [List.mem_singleton] at h2
            subst h2
            exact Or.inr (unknownTypeError_not_keyErr key typeName l c)
        · exact Or.inr h2
  | .literal v k l c => intro st hf err he; exact Or.inl he

/-- No new undefined_variable diagnostic for a resolvable key is
produced by argument-list checking. -/
theorem checkExprList_keyErr (key : String) (es : List Expr) : ∀ st : ChkState,
    foundKey key st.tab →
    ∀ err, err ∈ (checkExprList es st).errors → err ∈ st.errors ∨ ¬ keyErr key err := by
  match es with
  | [] => intro st hf err he; exact Or.inl he
  | e :: rest =>
    intro st hf err he
    have hf1 : foundKey key (checkExpr e st).tab := by
      rw [checkExpr_tab e]; exact hf
    have h2 := checkExprList_keyErr key rest (checkExpr e st) hf1 err he
    rcases h2 with h2 | h2
    · exact checkExpr_keyErr key e st hf err h2
    · exact Or.inr h2

end

/-- Combined table-invariance and diagnostic characterization for one
expression. -/
theorem checkExpr_both (key : String) (e : Expr) (st : ChkState)
    (hf : foundKey key st.tab) :
    foundKey key (checkExpr e st).tab ∧
    ∀ err, err ∈ (checkExpr e st).errors → err ∈ st.errors ∨ ¬ keyErr key err :=
  ⟨by rw [checkExpr_tab e]; exact hf, checkExpr_keyErr key e st hf⟩

mutual

/-- Statement checking keeps the key resolvable and produces no new
undefined_variable diagnostic for it. -/
theorem checkStmt_keyErr (key : String) (s : Stmt) : ∀ st : ChkState,
    foundKey key st.tab →
    foundKey key (checkStmt s st).tab ∧
    ∀ err, err ∈ (checkStmt s st).errors → err ∈ st.errors ∨ ¬ keyErr key err := by
  match s with
  | .varDecl d => intro st hf; exact ⟨hf, fun err he => Or.inl he⟩
  | .assignment target value l c =>
    intro st hf
    have hf1 : foundKey key (checkExpr value st).tab := by
      rw [checkExpr_tab value]; exact hf
    have hE := checkExpr_keyErr key value st hf
    match target with
    | .identifier name l2 c2 =>
      show foundKey key ((match (checkExpr value st).tab.lookupSym name with
            | some _ => checkExpr value st
            | none => (checkExpr value st).defineSym name
                ⟨name, "variable", l2, c2,
                 (checkExpr value st).tab.currentScopeLevel, false⟩) : ChkState).tab ∧
        ∀ err, err ∈ ((match (checkExpr value st).tab.lookupSym name with
            | some _ => checkExpr value st
            | none => (checkExpr value st).defineSym name
                ⟨name, "variable", l2, c2,
                 (checkExpr value st).tab.currentScopeLevel, false⟩) : ChkState).errors →
          err ∈ st.errors ∨ ¬ keyErr key err
      cases hl : (checkExpr value st).tab.lookupSym name with
      | some s2 => exact ⟨hf1, hE⟩
      | none => exact ⟨foundKey_define hf1 _ _, hE⟩
    | .binaryOp a b c2 d e2 =>
      obtain ⟨ha, hb⟩ := checkExpr_both key (.binaryOp a b c2 d e2) (checkExpr value st) hf1
      refine ⟨ha, fun err he => ?_⟩
      rcases hb err he with h | h
      · exact hE err h
      · exact Or.inr h
    | .unaryOp a b c2 d =>
      obtain ⟨ha, hb⟩ := checkExpr_both key (.unaryOp a b c2 d) (checkExpr value st) hf1
      refine ⟨ha, fun err he => ?_⟩
      rcases hb err he with h | h
      · exact hE err h
      · exact Or.inr h
    | .ternary a b c2 d e2 =>
      obtain ⟨ha, hb⟩ := checkExpr_both key (.ternary a b c2 d e2) (checkExpr value st) hf1
      refine ⟨ha, fun err he => ?_⟩
      rcases hb err he with h | h
      · exact hE err h
      · exact Or.inr h
    | .call a b c2 d =>
      obtain ⟨ha, hb⟩ := checkExpr_both key (.call a b c2 d) (checkExpr value st) hf1
      refine ⟨ha, fun err he => ?_⟩
      rcases hb err he with h | h
      · exact hE err h
      · exact Or.inr h
    | .memberAccess a b c2 d =>
      obtain ⟨ha, hb⟩ := checkExpr_both key (.memberAccess a b c2 d) (checkExpr value st) hf1
      refine ⟨ha, fun err he => ?_⟩
      rcases hb err he with h | h
      · exact hE err h
      · exact Or.inr h
    | .indexAccess a b c2 d =>
      obtain ⟨ha, hb⟩ := checkExpr_both key (.indexAccess a b c2 d) (checkExpr value st) hf1
      refine ⟨ha, fun err he => ?_⟩
      rcases hb err he with h | h
      · exact hE err h
      · exact Or.inr h
    | .newExpr a b c2 d =>
      obtain ⟨ha, hb⟩ := checkExpr_both key (.newExpr a b c2 d) (checkExpr value st) hf1
      refine ⟨ha, fun err he => ?_⟩
      rcases hb err he with h | h
      · exact hE err h
      · exact Or.inr h
    | .literal a b c2 d =>
      obtain ⟨ha, hb⟩ := checkExpr_both key (.literal a b c2 d) (checkExpr value st) hf1
      refine ⟨ha, fun err he => ?_⟩
      rcases hb err he with h | h
      · exact hE err h
      · exact Or.inr h
  | .ifStmt cond thenB elifs elseB l c =>
    intro st hf
    obtain ⟨h1a, h1b⟩ := checkExpr_both key cond st hf
    obtain ⟨h2a, h2b⟩ := checkStmts_keyErr key thenB _ h1a
    obtain ⟨h3a, h3b⟩ := checkElifs_keyErr key elifs _ h2a
    match elseB with
    | some b =>
      obtain ⟨h4a, h4b⟩ := checkStmts_keyErr key b _ h3a
      refine ⟨h4a, fun err he => ?_⟩
      rcases h4b err he with h | h
      · rcases h3b err h with h | h
        · rcases h2b err h with h | h
          · exact h1b err h
          · exact Or.inr h
        · exact Or.inr h
      · exact Or.inr h
    | none =>
      refine ⟨h3a, fun err he => ?_⟩
      rcases h3b err he with h | h
      · rcases h2b err h with h | h
        · exact h1b err h
        · exact Or.inr h
      · exact Or.inr h
  | .whileStmt cond body l c =>
    intro st hf
    obtain ⟨h1a, h1b⟩ := checkExpr_both key cond st hf
    obtain ⟨h2a, h2b⟩ := checkStmts_keyErr key body _ h1a
    refine ⟨h2a, fun err he => ?_⟩
    rcases h2b err he with h | h
    · exact h1b err h
    · exact Or.inr h
  | .forStmt v startE endE body l c =>
    intro st hf
    obtain ⟨h1a, h1b⟩ := checkExpr_both key startE st hf
    obtain ⟨h2a, h2b⟩ := checkExpr_both key endE _ h1a
    obtain ⟨h3a, h3b⟩ := checkStmts_keyErr key body _ h2a
    refine ⟨h3a, fun err he => ?_⟩
    rcases h3b err he with h | h
    · rcases h2b err h with h | h
      · exact h1b err h
      · exact Or.inr h
    · exact Or.inr h
  | .forEachStmt v coll body l c =>
    intro st hf
    obtain ⟨h1a, h1b⟩ := checkExpr_both key coll st hf
    obtain ⟨h2a, h2b⟩ := checkStmts_keyErr key body _ h1a
    refine ⟨h2a, fun err he => ?_⟩
    rcases h2b err he with h | h
    · exact h1b err h
    · exact Or.inr h
  | .tryStmt tb eb l c =>
    intro st hf
    obtain ⟨h1a, h1b⟩ := checkStmts_keyErr key tb st hf
    obtain ⟨h2a, h2b⟩ := checkStmts_keyErr key eb _ h1a
    refine ⟨h2a, fun err he => ?_⟩
    rcases h2b err he with h | h
    · exact h1b err h
    · exact Or.inr h
  | .returnStmt v l c =>
    intro st hf
    match v with
    | some e => exact checkExpr_both key e st hf
    | none => exact ⟨hf, fun err he => Or.inl he⟩
  | .breakStmt l c => intro st hf; exact ⟨hf, fun err he => Or.inl he⟩
  | .continueStmt l c => intro st hf; exact ⟨hf, fun err he => Or.inl he⟩
  | .raiseStmt v l c =>
    intro st hf
    match v with
    | some e => exact checkExpr_both key e st hf
    | none => exact ⟨hf, fun err he => Or.inl he⟩
  | .awaitStmt e l c => intro st hf; exact checkExpr_both key e st hf
  | .exprStmt e l c => intro st hf; exact checkExpr_both key e st hf

/-- Statement-list version of checkStmt_keyErr. -/
theorem checkStmts_keyErr (key : String) (body : List Stmt) : ∀ st : ChkState,
    foundKey key st.tab →
    foundKey key (checkStmts body st).tab ∧
    ∀ err, err ∈ (checkStmts body st).errors → err ∈ st.errors ∨ ¬ keyErr key err := by
  match body with
  | [] => intro st hf; exact ⟨hf, fun err he => Or.inl he⟩
  | s :: rest =>
    intro st hf
    obtain ⟨h1a, h1b⟩ := checkStmt_keyErr key s st hf
    obtain ⟨h2a, h2b⟩ := checkStmts_keyErr key rest _ h1a
    refine ⟨h2a, fun err he => ?_⟩
    rcases h2b err he with h | h
    · exact h1b err h
    · exact Or.inr h

/-- Elif-branch version of checkStmt_keyErr. -/
theorem checkElifs_keyErr (key : String) (branches : List (Expr × List Stmt)) :
    ∀ st : ChkState,
    foundKey key st.tab →
    foundKey key (checkElifs branches st).tab ∧
    ∀ err, err ∈ (checkElifs branches st).errors → err ∈ st.errors ∨ ¬ keyErr key err := by
  match branches with
  | [] => intro st hf; exact ⟨hf, fun err he => Or.inl he⟩
  | (cond, b) :: rest =>
    intro st hf
    obtain ⟨h1a, h1b⟩ := checkExpr_both key cond st hf
    obtain ⟨h2a, h2b⟩ := checkStmts_keyErr key b _ h1a
    obtain ⟨h3a, h3b⟩ := checkElifs_keyErr key rest _ h2a
    refine ⟨h3a, fun err he => ?_⟩
    rcases h3b err he with h | h
    · rcases h2b err h with h | h
      · exact h1b err h
      · exact Or.inr h
    · exact Or.inr h

end

/-- The parameter fold of the checker: errors untouched, table is the
corresponding fold of defines. -/
theorem foldl_defineSym_split (params : List ParameterNode) : ∀ st : ChkState,
    (params.foldl (fun s p => s.defineSym p.name
       ⟨p.name, "parameter", p.line, p.column, s.tab.currentScopeLevel, false⟩) st).errors
      = st.errors ∧
    (params.foldl (fun s p => s.defineSym p.name
       ⟨p.name, "parameter", p.line, p.column, s.tab.currentScopeLevel, false⟩) st).tab
      = params.foldl (fun t p => t.define p.name
       ⟨p.name, "parameter", p.line, p.column, t.currentScopeLevel, false⟩) st.tab := by
  induction params with
  | nil => intro st; exact ⟨rfl, rfl⟩
  | cons p rest ih =>
    intro st
    dsimp only [List.foldl]
    obtain ⟨h1, h2⟩ := ih (st.defineSym p.name
      ⟨p.name, "parameter", p.line, p.column, st.tab.currentScopeLevel, false⟩)
    exact ⟨h1, h2⟩

/-- Scope setup adds no diagnostics. -/
theorem checkScopeSetup_errors (params : List ParameterNode) (body : List Stmt)
    (st : ChkState) : (checkScopeSetup params body st).errors = st.errors :=
  (foldl_defineSym_split params { st with tab := st.tab.enterScope }).1

/-- After scope setup every name the recollect walker defines is
resolvable. -/
theorem checkScopeSetup_found (params : List ParameterNode) (body : List Stmt)
    (st : ChkState) {key : String} (hk : key ∈ declNamesBody body) :
    foundKey key (checkScopeSetup params body st).tab := by
  have hsplit := (foldl_defineSym_split params { st with tab := st.tab.enterScope }).2
  have hne : ({ st with tab := st.tab.enterScope }).tab.scopes ≠ [] := by
    show ([] :: st.tab.scopes) ≠ []
    simp
  have hfold := foldl_define_found (fun p : ParameterNode => p.name)
    (fun t p => ⟨p.name, "parameter", p.line, p.column, t.currentScopeLevel, false⟩)
    params ({ st with tab := st.tab.enterScope }).tab hne
  have hne2 : (params.foldl (fun (s : ChkState) (p : ParameterNode) => s.defineSym p.name
      ⟨p.name, "parameter", p.line, p.column, s.tab.currentScopeLevel, false⟩)
      { st with tab := st.tab.enterScope }).tab.scopes ≠ [] := by
    rw [hsplit]; exact hfold.1
  obtain ⟨h1, h2⟩ := recollectLocalVars_found body _ hne2
  exact h2 key (Or.inr hk)

/-- Function checking yields no new undefined_variable diagnostic for a
name the recollect walker declares in its body. -/
theorem checkFunction_keyErr (key : String) (f : FunctionNode) (st : ChkState)
    (hk : key ∈ declNamesBody f.body) :
    ∀ err, err ∈ (checkFunction f st).errors → err ∈ st.errors ∨ ¬ keyErr key err := by
  intro err he
  have hfound := checkScopeSetup_found f.parameters f.body st hk
  obtain ⟨h1a, h1b⟩ := checkStmts_keyErr key f.body
    (checkScopeSetup f.parameters f.body st) hfound
  rcases h1b err he with h | h
  · rw [checkScopeSetup_errors] at h
    exact Or.inl h
  · exact Or.inr h

/-- Procedure checking yields no new undefined_variable diagnostic for
a name the recollect walker declares in its body. -/
theorem checkProcedure_keyErr (key : String) (p : ProcedureNode) (st : ChkState)
    (hk : key ∈ declNamesBody p.body) :
    ∀ err, err ∈ (checkProcedure p st).errors → err ∈ st.errors ∨ ¬ keyErr key err := by
  intro err he
  have hfound := checkScopeSetup_found p.parameters p.body st hk
  obtain ⟨h1a, h1b⟩ := checkStmts_keyErr key p.body
    (checkScopeSetup p.parameters p.body st) hfound
  rcases h1b err he with h | h
  · rw [checkScopeSetup_errors] at h
    exact Or.inl h
  · exact Or.inr h

/-- Claim C2: names declared anywhere in a function or procedure body —
variable declarations and numeric-for / for-each loop variables, at any
nesting depth inside if / while / try / for / for-each blocks — are
function-scoped: checking the function or procedure never emits an
undefined_variable diagnostic (plain or call) whose reported spelling
lowers to such a name, and for the loop-variable program
`Для i = 1 По 5 Цикл КонецЦикла; Возврат i;` analysis yields no
diagnostics at all. -/
theorem c2_function_scoped_declarations :
    (∀ (key : String) (f : FunctionNode) (st : ChkState), key ∈ declNamesBody f.body →
      ∀ err, err ∈ (checkFunction f st).errors → err ∈ st.errors ∨ ¬ keyErr key err) ∧
    (∀ (key : String) (p : ProcedureNode) (st : ChkState), key ∈ declNamesBody p.body →
      ∀ err, err ∈ (checkProcedure p st).errors → err ∈ st.errors ∨ ¬ keyErr key err) ∧
    analyzeErrors (.module c2ForModule) none = [] :=
  ⟨fun key f st hk => checkFunction_keyErr key f st hk,
   fun key p st hk => checkProcedure_keyErr key p st hk,
   by rfl⟩

/-- Witness instantiating C2 on the for-loop fixture with a pre-seeded
diagnostic list. -/
theorem c2_witness :
    undefinedVarError "i" 9 9 ∈
        (⟨⟨[[]], 0, 0⟩, [undefinedVarError "i" 9 9]⟩ : ChkState).errors ∨
      ¬ keyErr "i" (undefinedVarError "i" 9 9) :=
  c2_function_scoped_declarations.1 "i" c2ForFunction
    ⟨⟨[[]], 0, 0⟩, [undefinedVarError "i" 9 9]⟩
    (by decide) (undefinedVarError "i" 9 9) (by decide)

end OneC
